import Mathlib

/-!
# go-metrics-influxdb: the reporter of `influxdb.go`

A shallow embedding of `src/go-metrics-influxdb/influxdb.go`.

* Go maps are reference values: a `map[string]string` is an optional address
  into a heap of association lists (`nil` is `none`), so that sharing the
  base tag map of the reporter between points (`Tags: r.tags`) and copying it
  (`copyTagMap(r.tags)`) are different things in the model, as they are in Go.
* The collaborators outside the file (the clock, the store client, the metrics
  package) are a `World` of outcomes, indexed by the number of earlier calls.
* Run-time panics (index out of range, assignment to an entry of a nil map,
  a store call through a nil client, whose methods read the fields of their
  receiver) are the `error` side of `Except Panic`.
* A ghost `trace` records the calls made on the collaborators in program
  order, the lines of `log.Printf` included.
* The loop of `run` never returns; it is modelled on the finite sequences of
  ticks that its two tickers deliver, and a report tick carries the entries
  that the live registry holds at that tick.
-/

namespace Influxdb

/-! ## Values -/

/-- A `float64`, identified by its IEEE-754 bit pattern. The reporter never
computes on floats, it only passes them on. -/
structure F64 where
  bits : Nat
deriving DecidableEq, Repr

/-- A `time.Time` instant, in nanoseconds. -/
abbrev Instant := Int

/-- The dynamic value boxed in an `interface{}` field of a point. -/
inductive FieldValue where
  | int64 (v : Int)
  | float64 (v : F64)
deriving DecidableEq, Repr

/-- The `metrics.Tag` of a gauge or of a reading: the fields `Name`, `Value`. -/
structure Tag where
  Name : String
  Value : String
deriving DecidableEq, Repr

/-- The contents of a `map[string]string`: distinct keys, each with one value. -/
abbrev TagMap := AList (fun _ : String => String)

/-- A `map[string]string` value: `none` is the nil map, `some a` the map
allocated at address `a`. -/
abbrev MapRef := Option Nat

/-- The allocated maps; the address of a map is its index. -/
abbrev Heap := List TagMap

/-- The `client.Point` literal fields that the reporter fills in. `Fields` keeps
the entries of the `map[string]interface{}` literal in the order in which the
source writes them. -/
structure Point where
  Measurement : String
  Tags : MapRef
  Fields : List (String × FieldValue)
  Time : Instant
deriving DecidableEq, Repr

/-- The `client.BatchPoints` literal of `send`. -/
structure BatchPoints where
  Points : List Point
  Database : String
deriving DecidableEq, Repr

/-- The `client.Config` literal of `makeClient`. -/
structure Config where
  URL : String
  Username : String
  Password : String
deriving DecidableEq, Repr

/-- The identity of an allocated `client.Client`. -/
abbrev Handle := Nat

/-- A non-nil Go `error`. -/
abbrev Error := String

/-! ## Metrics (package `go-metrics`, outside this file) -/

/-- What `metrics.Counter.Snapshot()` exposes to the reporter. -/
structure CounterSnapshot where
  Count : Int

/-- What `metrics.Gauge.Snapshot()` exposes to the reporter. -/
structure GaugeSnapshot where
  IsSet : Bool
  Tag : Option Tag
  Value : Int

/-- What `metrics.GaugeFloat64.Snapshot()` exposes to the reporter. -/
structure GaugeFloat64Snapshot where
  IsSet : Bool
  Tag : Option Tag
  Value : F64

/-- One element of `Readings()`. The declared type of the field `Reading` is
not in this file; it is boxed into the `value` field of the point as it is. -/
structure GaugeReading where
  Reading : FieldValue
  Time : Instant
  Tag : Option Tag

/-- What `metrics.GaugeCollection.Snapshot()` exposes to the reporter. -/
structure GaugeCollectionSnapshot where
  IsSet : Bool
  Readings : List GaugeReading

/-- What `metrics.Histogram.Snapshot()` exposes to the reporter. `Percentiles`
is the method of that name, a slice in and a slice out. -/
structure HistogramSnapshot where
  Count : Int
  Max : Int
  Mean : F64
  Min : Int
  StdDev : F64
  Variance : F64
  Percentiles : List F64 → List F64

/-- What `metrics.Meter.Snapshot()` exposes to the reporter. -/
structure MeterSnapshot where
  Count : Int
  Rate1 : F64
  Rate5 : F64
  Rate15 : F64
  RateMean : F64

/-- What `metrics.Timer.Snapshot()` exposes to the reporter. -/
structure TimerSnapshot where
  Count : Int
  Max : Int
  Mean : F64
  Min : Int
  StdDev : F64
  Variance : F64
  Percentiles : List F64 → List F64
  Rate1 : F64
  Rate5 : F64
  Rate15 : F64
  RateMean : F64

/-- The value `i interface{}` handed to the callback of `Each`, by the case of
the type switch that it selects; each case carries the snapshot that
`metric.Snapshot()` returns at this visit. `Other` is a value that matches no
case. -/
inductive Metric where
  | Counter (ms : CounterSnapshot)
  | Gauge (ms : GaugeSnapshot)
  | GaugeFloat64 (ms : GaugeFloat64Snapshot)
  | GaugeCollection (ms : GaugeCollectionSnapshot)
  | Histogram (ms : HistogramSnapshot)
  | Meter (ms : MeterSnapshot)
  | Timer (ms : TimerSnapshot)
  | Other

/-- The `(name, metric)` pairs that `reg.Each` hands to its callback during one
call, in the order of the calls. -/
abbrev Registry := List (String × Metric)

/-! ## Reporter, world and state -/

/-- The `reporter` struct. -/
structure reporter where
  reg : Registry
  interval : Int
  url : String
  database : String
  username : String
  password : String
  tags : MapRef
  client : Option Handle

/-- The run-time panics that the statements of the file can raise. -/
inductive Panic where
  | indexOutOfRange
  | nilMapAssignment
  | nilClient
deriving DecidableEq, Repr

/-- A call on a collaborator, as recorded in the ghost trace. -/
inductive Event where
  | now
  | snapshot (name : String)
  | append (p : Point)
  | clear (name : String)
  | write (h : Handle) (bps : BatchPoints)
  | ping (h : Handle)
  | newClient (cfg : Config)
  | log (msg : String)
deriving DecidableEq, Repr

/-- The outcomes of the calls that leave the file: the k-th reading of
`time.Now()`, the k-th `client.NewClient`, the k-th `Write` and the k-th
`Ping`. `NewClient` returns a pointer (possibly nil) and an error (possibly
nil); `Write` and `Ping` are reduced to their error result. -/
structure World where
  now : Nat → Instant
  newClient : Nat → Config → Option Handle × Option Error
  write : Nat → Handle → BatchPoints → Option Error
  ping : Nat → Handle → Option Error

/-- The mutable state around the reporter: the map heap, the number of calls
made so far on each collaborator, and the ghost trace. -/
structure Sys where
  heap : Heap
  clockReads : Nat
  newClientCalls : Nat
  writeCalls : Nat
  pingCalls : Nat
  trace : List Event
deriving DecidableEq

/-! ## The functions of `influxdb.go` -/

/-- The contents of the map behind a reference; the nil map has no entry. -/
def deref (heap : Heap) (m : MapRef) : TagMap :=
  match m with
  | none => ∅
  | some a => heap.getD a ∅

/-- The value of `m[k]` with its presence flag: a lookup through the reference. -/
def mapGet (heap : Heap) (m : MapRef) (k : String) : Option String :=
  (deref heap m).lookup k

/-- The statement `m[k] = v`: it panics on the nil map and otherwise updates
the map in place, for every holder of the reference. -/
def mapAssign (heap : Heap) (m : MapRef) (k v : String) : Except Panic Heap :=
  match m with
  | none => .error .nilMapAssignment
  | some a => .ok (heap.set a ((heap.getD a ∅).insert k v))

/-- The function `copyTagMap`: `make` a new map, assign every entry of `target`
to it (a `range` over the nil map runs zero times), return the new map. The
new map is not shared before it is returned; it enters the heap at a fresh
address. -/
def copyTagMap (heap : Heap) (target : MapRef) : MapRef × Heap :=
  let copy : TagMap :=
    (deref heap target).entries.foldl (fun c e => c.insert e.1 e.2) ∅
  (some heap.length, heap ++ [copy])

/-- Lines 117-121 of `send`, repeated at 138-142 and at 160-164: copy the base
tags and, when the gauge or reading has a tag, assign it into the copy. -/
def mergeTags (heap : Heap) (base : MapRef) (tag : Option Tag) :
    Except Panic (MapRef × Heap) :=
  let (tags, heap) := copyTagMap heap base
  match tag with
  | none => .ok (tags, heap)
  | some tag => do
    let heap ← mapAssign heap tags tag.Name tag.Value
    .ok (tags, heap)

/-- The slice index `ps[i]`. -/
def index (ps : List F64) (i : Nat) : Except Panic F64 :=
  match ps[i]? with
  | some p => .ok p
  | none => .error .indexOutOfRange

/-- The literal `[]float64{0.5, 0.75, 0.95, 0.99, 0.999, 0.9999}`. -/
def quantiles : List F64 :=
  [⟨0x3FE0000000000000⟩, ⟨0x3FE8000000000000⟩, ⟨0x3FEE666666666666⟩,
   ⟨0x3FEFAE147AE147AE⟩, ⟨0x3FEFF7CED916872B⟩, ⟨0x3FEFFF2E48E8A71E⟩]

/-- The statement `pts = append(pts, p)`. -/
def appendPoint (pts : List Point) (s : Sys) (p : Point) : List Point × Sys :=
  (pts ++ [p], { s with trace := s.trace ++ [Event.append p] })

/-- The call `metric.Snapshot()` on the metric visited under `name`. -/
def snapshot (s : Sys) (name : String) : Sys :=
  { s with trace := s.trace ++ [Event.snapshot name] }

/-- The call `metric.Clear()` on the metric visited under `name`. -/
def clear (s : Sys) (name : String) : Sys :=
  { s with trace := s.trace ++ [Event.clear name] }

/-- One iteration of the loop over `ms.Readings()` in the `GaugeCollection`
case (lines 158-174). -/
def readingStep (r : reporter) (name : String) (acc : List Point × Sys)
    (reading : GaugeReading) : Except Panic (List Point × Sys) := do
  let (tags, heap) ← mergeTags acc.2.heap r.tags reading.Tag
  .ok (appendPoint acc.1 { acc.2 with heap := heap }
    { Measurement := name ++ ".gauge"
      Tags := tags
      Fields := [("value", reading.Reading)]
      Time := reading.Time })

/-- The loop `for _, reading := range ms.Readings()`. -/
def readingsLoop (r : reporter) (name : String) :
    List GaugeReading → List Point × Sys → Except Panic (List Point × Sys)
  | [], acc => .ok acc
  | reading :: rest, acc => do
    let acc ← readingStep r name acc reading
    readingsLoop r name rest acc

/-- The callback that `send` passes to `r.reg.Each` (lines 98-241), on the
accumulator `pts` and the state. -/
def visit (w : World) (r : reporter) (name : String) (i : Metric)
    (pts : List Point) (s : Sys) : Except Panic (List Point × Sys) :=
  let now := w.now s.clockReads
  let s := { s with clockReads := s.clockReads + 1, trace := s.trace ++ [Event.now] }
  match i with
  | .Counter ms =>
    let s := snapshot s name
    .ok (appendPoint pts s
      { Measurement := name ++ ".count"
        Tags := r.tags
        Fields := [("value", .int64 ms.Count)]
        Time := now })
  | .Gauge ms =>
    let s := snapshot s name
    if ms.IsSet then do
      let (tags, heap) ← mergeTags s.heap r.tags ms.Tag
      let (pts, s) := appendPoint pts { s with heap := heap }
        { Measurement := name ++ ".gauge"
          Tags := tags
          Fields := [("value", .int64 ms.Value)]
          Time := now }
      .ok (pts, clear s name)
    else .ok (pts, s)
  | .GaugeFloat64 ms =>
    let s := snapshot s name
    if ms.IsSet then do
      let (tags, heap) ← mergeTags s.heap r.tags ms.Tag
      let (pts, s) := appendPoint pts { s with heap := heap }
        { Measurement := name ++ ".gauge"
          Tags := tags
          Fields := [("value", .float64 ms.Value)]
          Time := now }
      .ok (pts, clear s name)
    else .ok (pts, s)
  | .GaugeCollection ms =>
    let s := snapshot s name
    if ms.IsSet then do
      let (pts, s) ← readingsLoop r name ms.Readings (pts, s)
      .ok (pts, clear s name)
    else .ok (pts, s)
  | .Histogram ms => do
    let s := snapshot s name
    let ps := ms.Percentiles quantiles
    let p50 ← index ps 0
    let p75 ← index ps 1
    let p95 ← index ps 2
    let p99 ← index ps 3
    let p999 ← index ps 4
    let p9999 ← index ps 5
    .ok (appendPoint pts s
      { Measurement := name ++ ".histogram"
        Tags := r.tags
        Fields :=
          [("count", .int64 ms.Count), ("max", .int64 ms.Max),
           ("mean", .float64 ms.Mean), ("min", .int64 ms.Min),
           ("stddev", .float64 ms.StdDev), ("variance", .float64 ms.Variance),
           ("p50", .float64 p50), ("p75", .float64 p75), ("p95", .float64 p95),
           ("p99", .float64 p99), ("p999", .float64 p999),
           ("p9999", .float64 p9999)]
        Time := now })
  | .Meter ms =>
    let s := snapshot s name
    .ok (appendPoint pts s
      { Measurement := name ++ ".meter"
        Tags := r.tags
        Fields :=
          [("count", .int64 ms.Count), ("m1", .float64 ms.Rate1),
           ("m5", .float64 ms.Rate5), ("m15", .float64 ms.Rate15),
           ("mean", .float64 ms.RateMean)]
        Time := now })
  | .Timer ms => do
    let s := snapshot s name
    let ps := ms.Percentiles quantiles
    let p50 ← index ps 0
    let p75 ← index ps 1
    let p95 ← index ps 2
    let p99 ← index ps 3
    let p999 ← index ps 4
    let p9999 ← index ps 5
    .ok (appendPoint pts s
      { Measurement := name ++ ".timer"
        Tags := r.tags
        Fields :=
          [("count", .int64 ms.Count), ("max", .int64 ms.Max),
           ("mean", .float64 ms.Mean), ("min", .int64 ms.Min),
           ("stddev", .float64 ms.StdDev), ("variance", .float64 ms.Variance),
           ("p50", .float64 p50), ("p75", .float64 p75), ("p95", .float64 p95),
           ("p99", .float64 p99), ("p999", .float64 p999),
           ("p9999", .float64 p9999),
           ("m1", .float64 ms.Rate1), ("m5", .float64 ms.Rate5),
           ("m15", .float64 ms.Rate15), ("meanrate", .float64 ms.RateMean)]
        Time := now })
  | .Other => .ok (pts, s)

/-- The call `r.reg.Each(callback)`: the callback runs on every entry, in the
order of the visit. -/
def each (w : World) (r : reporter) :
    Registry → List Point → Sys → Except Panic (List Point × Sys)
  | [], pts, s => .ok (pts, s)
  | (name, i) :: rest, pts, s => do
    let (pts, s) ← visit w r name i pts s
    each w r rest pts s

/-- The method `send`: visit the registry from an empty `pts`, then hand one
batch to `r.client.Write` and return its error. -/
def send (w : World) (r : reporter) (s : Sys) : Except Panic (Sys × Option Error) := do
  let (pts, s) ← each w r r.reg [] s
  let bps : BatchPoints := { Points := pts, Database := r.database }
  match r.client with
  | none => .error .nilClient
  | some h =>
    let err := w.write s.writeCalls h bps
    .ok ({ s with writeCalls := s.writeCalls + 1, trace := s.trace ++ [Event.write h bps] }, err)

/-- The method `makeClient`: the two results of `client.NewClient` are
assigned to `r.client` and to the named result `err`, which is returned. -/
def makeClient (w : World) (r : reporter) (s : Sys) : reporter × Sys × Option Error :=
  let cfg : Config := { URL := r.url, Username := r.username, Password := r.password }
  let res := w.newClient s.newClientCalls cfg
  ({ r with client := res.1 },
   { s with newClientCalls := s.newClientCalls + 1, trace := s.trace ++ [Event.newClient cfg] },
   res.2)

/-- The call `log.Printf(format, ...)`, with the formatted message. -/
def logPrintf (s : Sys) (msg : String) : Sys :=
  { s with trace := s.trace ++ [Event.log msg] }

/-- One receive of the `select` in `run`: the interval ticker fired, or the
ping ticker fired. The registry is a live object of the host process, so an
interval tick carries the entries that `r.reg.Each` visits at that tick. -/
inductive Tick where
  | interval (content : Registry)
  | ping

/-- One iteration of the `for` loop of `run` (lines 77-91), for the ticker that
fired. The interval case sends and logs the error of `send`; the ping case
pings through `r.client` and, when the ping returns an error, logs it, calls
`makeClient` and logs the error of `makeClient`. No case leaves the loop. -/
def runTick (w : World) (r : reporter) (s : Sys) : Tick → Except Panic (reporter × Sys)
  | .interval content => do
    let r := { r with reg := content }
    let (s, err) ← send w r s
    match err with
    | some e => .ok (r, logPrintf s ("unable to send metrics to InfluxDB. err=" ++ e))
    | none => .ok (r, s)
  | .ping =>
    match r.client with
    | none => .error .nilClient
    | some c =>
      let err := w.ping s.pingCalls c
      let s := { s with pingCalls := s.pingCalls + 1, trace := s.trace ++ [Event.ping c] }
      match err with
      | none => .ok (r, s)
      | some e =>
        let s := logPrintf s
          ("got error while sending a ping to InfluxDB, trying to recreate client. err=" ++ e)
        let res := makeClient w r s
        match res.2.2 with
        | some e => .ok (res.1, logPrintf res.2.1 ("unable to make InfluxDB client. err=" ++ e))
        | none => .ok (res.1, res.2.1)

/-- The method `run`, on the ticks that its two tickers deliver, in the order
in which the `select` receives them. The loop has no exit: the result is the
state reached when these ticks have been handled. -/
def run (w : World) : List Tick → reporter → Sys → Except Panic (reporter × Sys)
  | [], r, s => .ok (r, s)
  | t :: rest, r, s => do
    let (r, s) ← runTick w r s t
    run w rest r s

/-- How a call of `InfluxDBWithTags` proceeds: it returns before the loop, or
it enters `run`, and then `r`, `s` are the reporter and the state after the
ticks delivered so far. -/
inductive Started where
  | returned (s : Sys)
  | looping (r : reporter) (s : Sys)

/-- The function `InfluxDBWithTags`. `parse` is `net/url.Parse`, which returns
the parsed URL or an error; `ticks` are the ticks that the tickers of `run`
deliver. -/
def InfluxDBWithTags (w : World) (parse : String → Except Error String) (ticks : List Tick)
    (r : Registry) (d : Int) (url database username password : String) (tags : MapRef)
    (s : Sys) : Except Panic Started :=
  match parse url with
  | .error e =>
    .ok (.returned (logPrintf s ("unable to parse InfluxDB url " ++ url ++ ". err=" ++ e)))
  | .ok u =>
    let rep : reporter :=
      { reg := r, interval := d, url := u, database := database, username := username,
        password := password, tags := tags, client := none }
    let res := makeClient w rep s
    match res.2.2 with
    | some e => .ok (.returned (logPrintf res.2.1 ("unable to make InfluxDB client. err=" ++ e)))
    | none => do
      let (rep, s) ← run w ticks res.1 res.2.1
      .ok (.looping rep s)

/-- The function `InfluxDB`: `InfluxDBWithTags` with the nil tag map. -/
def InfluxDB (w : World) (parse : String → Except Error String) (ticks : List Tick)
    (r : Registry) (d : Int) (url database username password : String)
    (s : Sys) : Except Panic Started :=
  InfluxDBWithTags w parse ticks r d url database username password none s

/-! ## Closed forms used by the statements -/

/-- The contents of the map that `mergeTags` allocates, given the contents `b`
of the base map: the copy of `b`, with the tag assigned when there is one. -/
def mergedMap (b : TagMap) (tag : Option Tag) : TagMap :=
  match tag with
  | none => b.entries.foldl (fun (c : TagMap) e => c.insert e.1 e.2) ∅
  | some t => (b.entries.foldl (fun (c : TagMap) e => c.insert e.1 e.2) ∅).insert t.Name t.Value

/-- The merge of a base mapping with an optional dynamic tag, in the words of
the specification: the name of the dynamic tag maps to its value, every other
key maps as in the base. -/
def mergeSpec (B : String → Option String) (tag : Option Tag) (k : String) : Option String :=
  match tag with
  | none => B k
  | some t => if k = t.Name then some t.Value else B k

/-- Whether a map reference is nil or points into the heap. -/
def allocated (heap : Heap) (m : MapRef) : Bool :=
  match m with
  | none => true
  | some a => decide (a < heap.length)

/-- The heap after the loop over the readings: one new map per reading. -/
def readingsHeap (base : MapRef) : List GaugeReading → Heap → Heap
  | [], heap => heap
  | reading :: rest, heap =>
    readingsHeap base rest (heap ++ [mergedMap (deref heap base) reading.Tag])

/-- The point that the loop over the readings builds for the reading `x.2`
when the copy of the tags is allocated at the address `x.1`. -/
def readingPoint (name : String) (x : Nat × GaugeReading) : Point :=
  { Measurement := name ++ ".gauge"
    Tags := some x.1
    Fields := [("value", x.2.Reading)]
    Time := x.2.Time }

/-- The timestamps of the points that one visit appends, when the visit makes
the clock reading number `k`. -/
def pointTimes (w : World) (k : Nat) : Metric → List Instant
  | .Counter _ => [w.now k]
  | .Gauge ms => if ms.IsSet then [w.now k] else []
  | .GaugeFloat64 ms => if ms.IsSet then [w.now k] else []
  | .GaugeCollection ms => if ms.IsSet then ms.Readings.map (fun rd => rd.Time) else []
  | .Histogram _ => [w.now k]
  | .Meter _ => [w.now k]
  | .Timer _ => [w.now k]
  | .Other => []

/-- The timestamps of the points of a whole visit of the registry that starts
at the clock reading number `k`: the entry number `j` makes the clock reading
number `k + j`. -/
def tickTimes (w : World) : Nat → Registry → List Instant
  | _, [] => []
  | k, e :: rest => pointTimes w k e.2 ++ tickTimes w (k + 1) rest

/-- The state in which `send` leaves `s`, or `s` itself when `send` panics. -/
def sendFinal (w : World) (r : reporter) (s : Sys) : Sys :=
  match send w r s with
  | .ok res => res.1
  | .error _ => s

/-! ## Example inputs -/

/-- A world for the examples: the clock advances by one at each reading, no
client can be created, writes and pings succeed. -/
def exWorld : World :=
  { now := fun k => 100 + (k : Int)
    newClient := fun _ _ => (none, some "connection refused")
    write := fun _ _ _ => none
    ping := fun _ _ => none }

/-- A state for the examples: one allocated map, the base tags `host = h1`. -/
def exSys : Sys :=
  { heap := [(∅ : TagMap).insert "host" "h1"]
    clockReads := 0
    newClientCalls := 0
    writeCalls := 0
    pingCalls := 0
    trace := [] }

/-- A reporter for the examples, over a given registry: its base tags are the
map at address 0 and its client is the handle 1. -/
def exReporter (reg : Registry) : reporter :=
  { reg := reg
    interval := 1000000000
    url := "http://localhost:8086"
    database := "metrics"
    username := "u"
    password := "p"
    tags := some 0
    client := some 1 }

/-- A set gauge with value 10 and the dynamic tag `sensor = A`. -/
def exGauge : GaugeSnapshot :=
  { IsSet := true, Tag := some { Name := "sensor", Value := "A" }, Value := 10 }

/-- A set float gauge without a dynamic tag. -/
def exGaugeFloat64 : GaugeFloat64Snapshot :=
  { IsSet := true, Tag := none, Value := ⟨0x3FE0000000000000⟩ }

/-- A set collection of two readings; the second has a dynamic tag whose name
is the name of a base tag. -/
def exCollection : GaugeCollectionSnapshot :=
  { IsSet := true
    Readings :=
      [{ Reading := .int64 5, Time := 7, Tag := none },
       { Reading := .int64 6, Time := 8, Tag := some { Name := "host", Value := "B" } }] }

/-- A histogram snapshot for the examples; its `Percentiles` returns the
requested quantiles themselves. -/
def exHistogram : HistogramSnapshot :=
  { Count := 3, Max := 9, Mean := ⟨1⟩, Min := 2, StdDev := ⟨2⟩, Variance := ⟨3⟩
    Percentiles := fun ps => ps }

/-- A timer snapshot for the examples; its `Percentiles` returns the requested
quantiles themselves. -/
def exTimer : TimerSnapshot :=
  { Count := 3, Max := 9, Mean := ⟨1⟩, Min := 2, StdDev := ⟨2⟩, Variance := ⟨3⟩
    Percentiles := fun ps => ps
    Rate1 := ⟨4⟩, Rate5 := ⟨5⟩, Rate15 := ⟨6⟩, RateMean := ⟨7⟩ }

/-- A registry of two counters. -/
def twoCounters : Registry :=
  [("a", .Counter { Count := 1 }), ("b", .Counter { Count := 2 })]

/-- A registry of a counter followed by a set gauge whose dynamic tag has the
name of a base tag. -/
def counterThenGauge : Registry :=
  [("reqs", .Counter { Count := 42 }),
   ("temp", .Gauge { IsSet := true, Tag := some { Name := "host", Value := "A" }, Value := 10 })]

/-! ## Closed forms used by the statements on the whole tick -/

/-- A world whose clock always reads `t`. -/
def clockAt (t : Instant) : World :=
  { now := fun _ => t
    newClient := fun _ _ => (none, none)
    write := fun _ _ _ => none
    ping := fun _ _ => none }

/-- The state with the heap `heap`, no call made and an empty trace. -/
def blank (heap : Heap) : Sys :=
  { heap := heap
    clockReads := 0
    newClientCalls := 0
    writeCalls := 0
    pingCalls := 0
    trace := [] }

/-- The result `x` of a visit made from the empty accumulator and a blank
state, carried over to the accumulator `pts` and the state `s`. -/
def rebase (pts : List Point) (s : Sys) (x : List Point × Sys) : List Point × Sys :=
  (pts ++ x.1,
   { s with
     heap := x.2.heap
     clockReads := s.clockReads + 1
     trace := s.trace ++ x.2.trace })

/-- The points and the heap of a result. -/
def pointsAndHeap (x : List Point × Sys) : List Point × Heap :=
  (x.1, x.2.heap)

/-- The world `w` without its clock reading number `k`: the readings after it
move up by one place. -/
def skipReading (w : World) (k : Nat) : World :=
  { w with now := fun j => if j < k then w.now j else w.now (j + 1) }

/-- The translation of a registry in the words of the specification: every
entry is translated on its own, from the empty accumulator, and the points of
the entries are concatenated in the order of the visit. -/
def translateAll (w : World) (r : reporter) : Registry → Sys → Except Panic (List Point × Sys)
  | [], s => .ok ([], s)
  | (name, i) :: rest, s => do
    let (new, s) ← visit w r name i [] s
    let (more, s) ← translateAll w r rest s
    .ok (new ++ more, s)

/-- Whether an event is a call on the store client package. -/
def isStoreCall : Event → Bool
  | .write _ _ => true
  | .ping _ => true
  | .newClient _ => true
  | _ => false

/-- The batch writes of a trace, in order. -/
def writesIn (t : List Event) : List (Handle × BatchPoints) :=
  t.filterMap (fun e => match e with
    | .write h bps => some (h, bps)
    | _ => none)

/-- The names under which `Clear` was invoked in a trace, in order. -/
def cleared (t : List Event) : List String :=
  t.filterMap (fun e => match e with
    | .clear name => some name
    | _ => none)

/-- The Histogram snapshot with the accessors of a Timer snapshot. -/
def histogramOf (ms : TimerSnapshot) : HistogramSnapshot :=
  { Count := ms.Count, Max := ms.Max, Mean := ms.Mean, Min := ms.Min
    StdDev := ms.StdDev, Variance := ms.Variance, Percentiles := ms.Percentiles }

/-- The Meter snapshot with the accessors of a Timer snapshot. -/
def meterOf (ms : TimerSnapshot) : MeterSnapshot :=
  { Count := ms.Count, Rate1 := ms.Rate1, Rate5 := ms.Rate5, Rate15 := ms.Rate15
    RateMean := ms.RateMean }

/-- The fields `fs` with the key `old` written `new`. -/
def renameKey (old new : String) (fs : List (String × FieldValue)) :
    List (String × FieldValue) :=
  fs.map (fun f => if f.1 = old then (new, f.2) else f)

/-- The names under which the visit of a registry invokes `Clear`: the names of
the entries that are a set Gauge, GaugeFloat64 or GaugeCollection. -/
def clearedBy : Registry → List String
  | [] => []
  | (name, .Gauge ms) :: rest => (if ms.IsSet then [name] else []) ++ clearedBy rest
  | (name, .GaugeFloat64 ms) :: rest => (if ms.IsSet then [name] else []) ++ clearedBy rest
  | (name, .GaugeCollection ms) :: rest => (if ms.IsSet then [name] else []) ++ clearedBy rest
  | _ :: rest => clearedBy rest

/-- Whether `Percentiles` answers the six quantiles of `send` with at least six
results, for a Histogram or a Timer; other metrics have no such call. -/
def sixPercentiles : Metric → Bool
  | .Histogram ms => decide (6 ≤ (ms.Percentiles quantiles).length)
  | .Timer ms => decide (6 ≤ (ms.Percentiles quantiles).length)
  | _ => true

/-- A world in which the store is down: the clock advances by one at each
reading, no client can be created, every write and every ping fails. -/
def downWorld : World :=
  { now := fun k => 100 + (k : Int)
    newClient := fun _ _ => (none, some "connection refused")
    write := fun _ _ _ => some "write failed"
    ping := fun _ _ => some "ping failed" }

/-- A world in which the pings fail and every `NewClient` returns the handle 2
and no error. -/
def rebuildWorld : World :=
  { now := fun k => 100 + (k : Int)
    newClient := fun _ _ => (some 2, none)
    write := fun _ _ _ => none
    ping := fun _ _ => some "ping failed" }

/-- A meter snapshot for the examples. -/
def exMeter : MeterSnapshot :=
  { Count := 3, Rate1 := ⟨4⟩, Rate5 := ⟨5⟩, Rate15 := ⟨6⟩, RateMean := ⟨7⟩ }

/-- A `Parse` that accepts every string, as it is. -/
def parseOk : String → Except Error String :=
  fun u => .ok u

/-- A `Parse` that rejects every string. -/
def parseFail : String → Except Error String :=
  fun _ => .error "invalid URL"

/-- A world in which every write and every ping fails, while every `NewClient`
returns the handle 2 and no error. -/
def stormWorld : World :=
  { now := fun k => 100 + (k : Int)
    newClient := fun _ _ => (some 2, none)
    write := fun _ _ _ => some "write failed"
    ping := fun _ _ => some "ping failed" }

/-- The tag mapping that holds the dynamic tag and nothing else. -/
def tagOnly (tag : Option Tag) : TagMap :=
  match tag with
  | none => ∅
  | some t => AList.singleton t.Name t.Value

/-! ## Lemmas -/

theorem foldl_insert_lookup (l : List (Sigma fun _ : String => String))
    (h : l.NodupKeys) (acc : TagMap) (k : String) :
    (l.foldl (fun c e => c.insert e.1 e.2) acc).lookup k
      = match List.dlookup k l with
        | some v => some v
        | none => acc.lookup k := by
  induction l generalizing acc with
  | nil => simp
  | cons e l ih =>
    obtain ⟨a, b⟩ := e
    rw [List.nodupKeys_cons] at h
    rw [List.foldl_cons, ih h.2]
    by_cases hk : k = a
    · subst hk
      have : List.dlookup k l = none := by
        rw [List.dlookup_eq_none]; exact h.1
      simp [this, AList.lookup_insert]
    · have hk' : a ≠ k := fun h => hk h.symm
      simp [List.dlookup_cons_ne l ⟨a, b⟩ hk, AList.lookup_insert_ne hk]

theorem getD_append_length (heap : Heap) (c : TagMap) :
    (heap ++ [c]).getD heap.length ∅ = c := by
  simp [List.getD_eq_getElem?_getD]

theorem set_append_length (heap : Heap) (c d : TagMap) :
    (heap ++ [c]).set heap.length d = heap ++ [d] := by
  simp [List.set_append]

theorem mergeTags_eq (heap : Heap) (base : MapRef) (tag : Option Tag) :
    mergeTags heap base tag
      = .ok (some heap.length, heap ++ [mergedMap (deref heap base) tag]) := by
  cases tag with
  | none => simp [mergeTags, copyTagMap, mergedMap]
  | some t =>
    simp [mergeTags, copyTagMap, mergedMap, mapAssign, getD_append_length, set_append_length, bind, Except.bind]

theorem mergedMap_lookup (b : TagMap) (tag : Option Tag) (k : String) :
    (mergedMap b tag).lookup k
      = match tag with
        | none => b.lookup k
        | some t => if k = t.Name then some t.Value else b.lookup k := by
  have hcopy : (b.entries.foldl (fun c e => c.insert e.1 e.2) (∅ : TagMap)).lookup k = b.lookup k := by
    rw [foldl_insert_lookup _ b.nodupKeys]
    simp only [AList.lookup_empty]
    show _ = List.dlookup k b.entries
    cases List.dlookup k b.entries <;> rfl
  cases tag with
  | none => simpa [mergedMap] using hcopy
  | some t =>
    simp only [mergedMap]
    by_cases hk : k = t.Name
    · subst hk; simp [AList.lookup_insert]
    · simp [AList.lookup_insert_ne hk, hk, hcopy]

theorem mapGet_mergeTags (heap : Heap) (base : MapRef) (tag : Option Tag) (k : String) :
    mapGet (heap ++ [mergedMap (deref heap base) tag]) (some heap.length) k
      = mergeSpec (mapGet heap base) tag k := by
  simp only [mapGet, deref, getD_append_length, mergedMap_lookup, mergeSpec]

theorem readingsLoop_eq (r : reporter) (name : String) (rs : List GaugeReading) :
    ∀ (pts : List Point) (s : Sys),
      readingsLoop r name rs (pts, s)
        = .ok (pts ++ (rs.enumFrom s.heap.length).map (readingPoint name),
            { s with
              heap := readingsHeap r.tags rs s.heap
              trace := s.trace
                ++ ((rs.enumFrom s.heap.length).map (readingPoint name)).map Event.append }) := by
  induction rs with
  | nil => intro pts s; simp [readingsLoop, readingsHeap]
  | cons rd rs ih =>
    intro pts s
    simp only [readingsLoop, readingStep, mergeTags_eq, bind, Except.bind, appendPoint]
    rw [ih]
    simp [readingsHeap, List.enumFrom_cons, readingPoint]

theorem readingsHeap_length (base : MapRef) (rs : List GaugeReading) :
    ∀ heap : Heap, (readingsHeap base rs heap).length = heap.length + rs.length := by
  induction rs with
  | nil => intro heap; simp [readingsHeap]
  | cons rd rs ih => intro heap; simp [readingsHeap, ih]; omega

theorem allocated_append (heap l : Heap) (m : MapRef) (h : allocated heap m = true) :
    allocated (heap ++ l) m = true := by
  cases m with
  | none => rfl
  | some a =>
    simp only [allocated, decide_eq_true_eq, List.length_append] at h ⊢
    omega

theorem deref_append (heap l : Heap) (m : MapRef) (h : allocated heap m = true) :
    deref (heap ++ l) m = deref heap m := by
  cases m with
  | none => rfl
  | some a =>
    simp only [allocated, decide_eq_true_eq] at h
    simp [deref, List.getD_eq_getElem?_getD, List.getElem?_append_left h]

theorem readingsHeap_ext (base : MapRef) (rs : List GaugeReading) :
    ∀ heap : Heap, ∃ l, readingsHeap base rs heap = heap ++ l ∧ l.length = rs.length := by
  induction rs with
  | nil => intro heap; exact ⟨[], by simp [readingsHeap]⟩
  | cons rd rs ih =>
    intro heap
    obtain ⟨l, hl, hlen⟩ := ih (heap ++ [mergedMap (deref heap base) rd.Tag])
    exact ⟨mergedMap (deref heap base) rd.Tag :: l, by simp [readingsHeap, hl], by simp [hlen]⟩

theorem readingsHeap_closed (base : MapRef) (rs : List GaugeReading) :
    ∀ heap : Heap, allocated heap base = true →
      readingsHeap base rs heap
        = heap ++ rs.map (fun rd => mergedMap (deref heap base) rd.Tag) := by
  induction rs with
  | nil => intro heap _; simp [readingsHeap]
  | cons rd rs ih =>
    intro heap h
    simp only [readingsHeap]
    rw [ih _ (allocated_append heap _ base h), deref_append heap _ base h]
    simp

theorem mem_enumFrom_readingPoint (name : String) (rs : List GaugeReading) (n : Nat)
    (p : Point) (hp : p ∈ (rs.enumFrom n).map (readingPoint name)) :
    ∃ a, p.Tags = some a ∧ a < n + rs.length := by
  rw [List.mem_map] at hp
  obtain ⟨⟨a, rd⟩, hmem, rfl⟩ := hp
  have := List.fst_lt_add_of_mem_enumFrom hmem
  exact ⟨a, rfl, this⟩

theorem enumFrom_readingPoint_times (name : String) (rs : List GaugeReading) (n : Nat) :
    ((rs.enumFrom n).map (readingPoint name)).map Point.Time
      = rs.map (fun rd => rd.Time) := by
  induction rs generalizing n with
  | nil => rfl
  | cons rd rs ih => simp [List.enumFrom_cons, readingPoint, ← ih (n + 1)]

theorem visit_gauge_eq (w : World) (r : reporter) (name : String) (ms : GaugeSnapshot)
    (pts : List Point) (s : Sys) (h : ms.IsSet = true) :
    visit w r name (.Gauge ms) pts s
      = .ok (pts ++ [{ Measurement := name ++ ".gauge", Tags := some s.heap.length,
                       Fields := [("value", .int64 ms.Value)],
                       Time := w.now s.clockReads }],
          { s with
            heap := s.heap ++ [mergedMap (deref s.heap r.tags) ms.Tag]
            clockReads := s.clockReads + 1
            trace := s.trace ++
              [Event.now, Event.snapshot name,
               Event.append { Measurement := name ++ ".gauge", Tags := some s.heap.length,
                              Fields := [("value", .int64 ms.Value)],
                              Time := w.now s.clockReads },
               Event.clear name] }) := by
  simp [visit, h, mergeTags_eq, appendPoint, snapshot, clear, bind, Except.bind]

theorem visit_gaugeFloat64_eq (w : World) (r : reporter) (name : String)
    (ms : GaugeFloat64Snapshot) (pts : List Point) (s : Sys) (h : ms.IsSet = true) :
    visit w r name (.GaugeFloat64 ms) pts s
      = .ok (pts ++ [{ Measurement := name ++ ".gauge", Tags := some s.heap.length,
                       Fields := [("value", .float64 ms.Value)],
                       Time := w.now s.clockReads }],
          { s with
            heap := s.heap ++ [mergedMap (deref s.heap r.tags) ms.Tag]
            clockReads := s.clockReads + 1
            trace := s.trace ++
              [Event.now, Event.snapshot name,
               Event.append { Measurement := name ++ ".gauge", Tags := some s.heap.length,
                              Fields := [("value", .float64 ms.Value)],
                              Time := w.now s.clockReads },
               Event.clear name] }) := by
  simp [visit, h, mergeTags_eq, appendPoint, snapshot, clear, bind, Except.bind]

theorem visit_collection_eq (w : World) (r : reporter) (name : String)
    (ms : GaugeCollectionSnapshot) (pts : List Point) (s : Sys) (h : ms.IsSet = true) :
    visit w r name (.GaugeCollection ms) pts s
      = .ok (pts ++ (ms.Readings.enumFrom s.heap.length).map (readingPoint name),
          { s with
            heap := readingsHeap r.tags ms.Readings s.heap
            clockReads := s.clockReads + 1
            trace := s.trace ++ [Event.now, Event.snapshot name]
              ++ ((ms.Readings.enumFrom s.heap.length).map (readingPoint name)).map Event.append
              ++ [Event.clear name] }) := by
  simp [visit, h, readingsLoop_eq, snapshot, clear, bind, Except.bind]

theorem visit_histogram_eq (w : World) (r : reporter) (name : String) (ms : HistogramSnapshot)
    (pts : List Point) (s : Sys) (p50 p75 p95 p99 p999 p9999 : F64) (rest : List F64)
    (hps : ms.Percentiles quantiles = p50 :: p75 :: p95 :: p99 :: p999 :: p9999 :: rest) :
    visit w r name (.Histogram ms) pts s
      = .ok (pts ++ [{ Measurement := name ++ ".histogram", Tags := r.tags,
                       Fields :=
                         [("count", .int64 ms.Count), ("max", .int64 ms.Max),
                          ("mean", .float64 ms.Mean), ("min", .int64 ms.Min),
                          ("stddev", .float64 ms.StdDev), ("variance", .float64 ms.Variance),
                          ("p50", .float64 p50), ("p75", .float64 p75), ("p95", .float64 p95),
                          ("p99", .float64 p99), ("p999", .float64 p999),
                          ("p9999", .float64 p9999)],
                       Time := w.now s.clockReads }],
          { s with
            clockReads := s.clockReads + 1
            trace := s.trace ++
              [Event.now, Event.snapshot name,
               Event.append { Measurement := name ++ ".histogram", Tags := r.tags,
                                 Fields :=
                                   [("count", .int64 ms.Count), ("max", .int64 ms.Max),
                                    ("mean", .float64 ms.Mean), ("min", .int64 ms.Min),
                                    ("stddev", .float64 ms.StdDev), ("variance", .float64 ms.Variance),
                                    ("p50", .float64 p50), ("p75", .float64 p75), ("p95", .float64 p95),
                                    ("p99", .float64 p99), ("p999", .float64 p999),
                                    ("p9999", .float64 p9999)],
                                 Time := w.now s.clockReads }] }) := by
  simp [visit, hps, index, appendPoint, snapshot, bind, Except.bind]

theorem visit_timer_eq (w : World) (r : reporter) (name : String) (ms : TimerSnapshot)
    (pts : List Point) (s : Sys) (p50 p75 p95 p99 p999 p9999 : F64) (rest : List F64)
    (hps : ms.Percentiles quantiles = p50 :: p75 :: p95 :: p99 :: p999 :: p9999 :: rest) :
    visit w r name (.Timer ms) pts s
      = .ok (pts ++ [{ Measurement := name ++ ".timer", Tags := r.tags,
                       Fields :=
                         [("count", .int64 ms.Count), ("max", .int64 ms.Max),
                          ("mean", .float64 ms.Mean), ("min", .int64 ms.Min),
                          ("stddev", .float64 ms.StdDev), ("variance", .float64 ms.Variance),
                          ("p50", .float64 p50), ("p75", .float64 p75), ("p95", .float64 p95),
                          ("p99", .float64 p99), ("p999", .float64 p999),
                          ("p9999", .float64 p9999),
                          ("m1", .float64 ms.Rate1), ("m5", .float64 ms.Rate5),
                          ("m15", .float64 ms.Rate15), ("meanrate", .float64 ms.RateMean)],
                       Time := w.now s.clockReads }],
          { s with
            clockReads := s.clockReads + 1
            trace := s.trace ++
              [Event.now, Event.snapshot name,
               Event.append { Measurement := name ++ ".timer", Tags := r.tags,
                                 Fields :=
                                   [("count", .int64 ms.Count), ("max", .int64 ms.Max),
                                    ("mean", .float64 ms.Mean), ("min", .int64 ms.Min),
                                    ("stddev", .float64 ms.StdDev), ("variance", .float64 ms.Variance),
                                    ("p50", .float64 p50), ("p75", .float64 p75), ("p95", .float64 p95),
                                    ("p99", .float64 p99), ("p999", .float64 p999),
                                    ("p9999", .float64 p9999),
                                    ("m1", .float64 ms.Rate1), ("m5", .float64 ms.Rate5),
                                    ("m15", .float64 ms.Rate15), ("meanrate", .float64 ms.RateMean)],
                                 Time := w.now s.clockReads }] }) := by
  simp [visit, hps, index, appendPoint, snapshot, bind, Except.bind]

theorem visit_frame (w : World) (r : reporter) (name : String) (i : Metric)
    (pts pts' : List Point) (s s' : Sys) (h : visit w r name i pts s = .ok (pts', s')) :
    ∃ (new : List Point) (l : Heap),
      pts' = pts ++ new ∧ s'.heap = s.heap ++ l
      ∧ s'.clockReads = s.clockReads + 1
      ∧ new.map Point.Time = pointTimes w s.clockReads i
      ∧ (allocated s.heap r.tags = true → ∀ p ∈ new, allocated s'.heap p.Tags = true) := by
  cases i with
  | Counter ms =>
    simp only [visit, appendPoint, snapshot, Except.ok.injEq, Prod.mk.injEq] at h
    obtain ⟨rfl, rfl⟩ := h
    exact ⟨_, [], rfl, by simp, rfl, rfl, by simp⟩
  | Meter ms =>
    simp only [visit, appendPoint, snapshot, Except.ok.injEq, Prod.mk.injEq] at h
    obtain ⟨rfl, rfl⟩ := h
    exact ⟨_, [], rfl, by simp, rfl, rfl, by simp⟩
  | Other =>
    simp only [visit, Except.ok.injEq, Prod.mk.injEq] at h
    obtain ⟨rfl, rfl⟩ := h
    exact ⟨[], [], by simp, by simp, rfl, rfl, by simp⟩
  | Gauge ms =>
    cases hset : ms.IsSet with
    | false =>
      simp only [visit, hset, snapshot, Except.ok.injEq, Prod.mk.injEq] at h
      obtain ⟨rfl, rfl⟩ := h
      exact ⟨[], [], by simp, by simp, rfl, by simp [pointTimes, hset], by simp⟩
    | true =>
      simp only [visit, hset, mergeTags_eq, appendPoint, snapshot, clear, bind, Except.bind,
        Except.ok.injEq, Prod.mk.injEq, if_true] at h
      obtain ⟨rfl, rfl⟩ := h
      exact ⟨_, [_], rfl, rfl, rfl, by simp [pointTimes, hset], by simp [allocated]⟩
  | GaugeFloat64 ms =>
    cases hset : ms.IsSet with
    | false =>
      simp only [visit, hset, snapshot, Except.ok.injEq, Prod.mk.injEq] at h
      obtain ⟨rfl, rfl⟩ := h
      exact ⟨[], [], by simp, by simp, rfl, by simp [pointTimes, hset], by simp⟩
    | true =>
      simp only [visit, hset, mergeTags_eq, appendPoint, snapshot, clear, bind, Except.bind,
        Except.ok.injEq, Prod.mk.injEq, if_true] at h
      obtain ⟨rfl, rfl⟩ := h
      exact ⟨_, [_], rfl, rfl, rfl, by simp [pointTimes, hset], by simp [allocated]⟩
  | GaugeCollection ms =>
    cases hset : ms.IsSet with
    | false =>
      simp only [visit, hset, snapshot, Except.ok.injEq, Prod.mk.injEq] at h
      obtain ⟨rfl, rfl⟩ := h
      exact ⟨[], [], by simp, by simp, rfl, by simp [pointTimes, hset], by simp⟩
    | true =>
      rw [visit_collection_eq w r name ms pts s hset] at h
      simp only [Except.ok.injEq, Prod.mk.injEq] at h
      obtain ⟨rfl, rfl⟩ := h
      obtain ⟨l, hl, hlen⟩ := readingsHeap_ext r.tags ms.Readings s.heap
      refine ⟨_, l, rfl, hl, rfl, ?_, ?_⟩
      · simpa [pointTimes, hset] using
          enumFrom_readingPoint_times name ms.Readings s.heap.length
      · intro _ p hp
        obtain ⟨a, ha, hlt⟩ := mem_enumFrom_readingPoint name ms.Readings s.heap.length p hp
        simp [allocated, ha, hl, hlen, hlt]
  | Histogram ms =>
    rcases hps : ms.Percentiles quantiles with
      _ | ⟨p50, _ | ⟨p75, _ | ⟨p95, _ | ⟨p99, _ | ⟨p999, _ | ⟨p9999, rest⟩⟩⟩⟩⟩⟩
    all_goals first
      | (simp [visit, hps, index, bind, Except.bind] at h; done)
      | (rw [visit_histogram_eq w r name ms pts s _ _ _ _ _ _ _ hps] at h
         simp only [Except.ok.injEq, Prod.mk.injEq] at h
         obtain ⟨rfl, rfl⟩ := h
         exact ⟨_, [], rfl, by simp, rfl, rfl, by simp⟩)
  | Timer ms =>
    rcases hps : ms.Percentiles quantiles with
      _ | ⟨p50, _ | ⟨p75, _ | ⟨p95, _ | ⟨p99, _ | ⟨p999, _ | ⟨p9999, rest⟩⟩⟩⟩⟩⟩
    all_goals first
      | (simp [visit, hps, index, bind, Except.bind] at h; done)
      | (rw [visit_timer_eq w r name ms pts s _ _ _ _ _ _ _ hps] at h
         simp only [Except.ok.injEq, Prod.mk.injEq] at h
         obtain ⟨rfl, rfl⟩ := h
         exact ⟨_, [], rfl, by simp, rfl, rfl, by simp⟩)

theorem each_frame (w : World) (r : reporter) (es : Registry) :
    ∀ (pts pts' : List Point) (s s' : Sys), each w r es pts s = .ok (pts', s') →
      ∃ (new : List Point) (l : Heap),
        pts' = pts ++ new ∧ s'.heap = s.heap ++ l
        ∧ s'.clockReads = s.clockReads + es.length
        ∧ new.map Point.Time = tickTimes w s.clockReads es
        ∧ (allocated s.heap r.tags = true → ∀ p ∈ new, allocated s'.heap p.Tags = true) := by
  induction es with
  | nil =>
    intro pts pts' s s' h
    simp only [each, Except.ok.injEq, Prod.mk.injEq] at h
    obtain ⟨rfl, rfl⟩ := h
    exact ⟨[], [], by simp, by simp, rfl, rfl, by simp⟩
  | cons e es ih =>
    intro pts pts' s s' h
    obtain ⟨name, i⟩ := e
    simp only [each, bind, Except.bind] at h
    cases hv : visit w r name i pts s with
    | error e => simp [hv] at h
    | ok res =>
      obtain ⟨pts1, s1⟩ := res
      simp only [hv] at h
      obtain ⟨new1, l1, hp1, hh1, hc1, ht1, ha1⟩ := visit_frame w r name i pts pts1 s s1 hv
      obtain ⟨new2, l2, hp2, hh2, hc2, ht2, ha2⟩ := ih pts1 pts' s1 s' h
      refine ⟨new1 ++ new2, l1 ++ l2, by simp [hp2, hp1], by simp [hh2, hh1], ?_, ?_, ?_⟩
      · simp [hc2, hc1]; omega
      · simp [tickTimes, ht1, ht2, hc1]
      · intro hal p hp
        rw [List.mem_append] at hp
        rcases hp with hp | hp
        · rw [hh2]; exact allocated_append _ _ _ (ha1 hal p hp)
        · exact ha2 (by rw [hh1]; exact allocated_append _ _ _ hal) p hp

theorem each_append (w : World) (r : reporter) (es1 es2 : Registry) :
    ∀ (pts : List Point) (s : Sys),
      each w r (es1 ++ es2) pts s
        = (each w r es1 pts s).bind (fun x => each w r es2 x.1 x.2) := by
  induction es1 with
  | nil => intro pts s; simp [each, Except.bind]
  | cons e es ih =>
    intro pts s
    obtain ⟨name, i⟩ := e
    simp only [List.cons_append, each, bind]
    cases visit w r name i pts s with
    | error e => simp [Except.bind]
    | ok res => simp [Except.bind, ih]

theorem send_inv (w : World) (r : reporter) (s s' : Sys) (err : Option Error)
    (h : send w r s = .ok (s', err)) :
    ∃ (pts : List Point) (s2 : Sys) (c : Handle),
      each w r r.reg [] s = .ok (pts, s2) ∧ r.client = some c
      ∧ s' = { s2 with writeCalls := s2.writeCalls + 1
                       trace := s2.trace ++ [Event.write c ⟨pts, r.database⟩] }
      ∧ err = w.write s2.writeCalls c ⟨pts, r.database⟩ := by
  simp only [send, bind, Except.bind] at h
  cases he : each w r r.reg [] s with
  | error e => simp [he] at h
  | ok res =>
    obtain ⟨pts, s2⟩ := res
    simp only [he] at h
    cases hc : r.client with
    | none => simp [hc] at h
    | some c =>
      simp only [hc, Except.ok.injEq, Prod.mk.injEq] at h
      exact ⟨pts, s2, c, rfl, rfl, h.1.symm, h.2.symm⟩

/-! ## The claims -/

/-- Claim C1: for every metric name and every Counter, the Counter case of the
callback of `send` appends exactly one point, whose measurement is the name
followed by `.count`, whose only field is `value` with the count of the
snapshot, whose tags are the base tags of the reporter (the same map) and
whose time is the clock reading of the visit; the calls made are the clock
reading, `Snapshot` and the append, so `Clear` is not invoked, and the heap of
maps is untouched. -/
theorem counter_one_point (w : World) (r : reporter) (name : String)
    (ms : CounterSnapshot) (pts : List Point) (s : Sys) :
    visit w r name (.Counter ms) pts s
      = .ok (pts ++ [{ Measurement := name ++ ".count", Tags := r.tags,
                       Fields := [("value", .int64 ms.Count)],
                       Time := w.now s.clockReads }],
          { s with
            clockReads := s.clockReads + 1
            trace := s.trace ++
              [Event.now, Event.snapshot name,
               Event.append { Measurement := name ++ ".count", Tags := r.tags,
                              Fields := [("value", .int64 ms.Count)],
                              Time := w.now s.clockReads }] }) := by
  simp [visit, appendPoint, snapshot]

/-- Claim C2: for every Gauge and every GaugeFloat64 whose snapshot has `IsSet`
true, the callback appends exactly one point, with measurement the name
followed by `.gauge` and the only field `value` equal to the value of the
snapshot, and it invokes `Clear` on the metric exactly once, after the point
has been built from the snapshot and appended. -/
theorem set_gauge_one_point_then_clear (w : World) (r : reporter) (name : String)
    (pts : List Point) (s : Sys) :
    (∀ ms : GaugeSnapshot, ms.IsSet = true →
      visit w r name (.Gauge ms) pts s
        = .ok (pts ++ [{ Measurement := name ++ ".gauge", Tags := some s.heap.length,
                         Fields := [("value", .int64 ms.Value)],
                         Time := w.now s.clockReads }],
            { s with
              heap := s.heap ++ [mergedMap (deref s.heap r.tags) ms.Tag]
              clockReads := s.clockReads + 1
              trace := s.trace ++
                [Event.now, Event.snapshot name,
                 Event.append { Measurement := name ++ ".gauge", Tags := some s.heap.length,
                                Fields := [("value", .int64 ms.Value)],
                                Time := w.now s.clockReads },
                 Event.clear name] }))
    ∧ (∀ ms : GaugeFloat64Snapshot, ms.IsSet = true →
      visit w r name (.GaugeFloat64 ms) pts s
        = .ok (pts ++ [{ Measurement := name ++ ".gauge", Tags := some s.heap.length,
                         Fields := [("value", .float64 ms.Value)],
                         Time := w.now s.clockReads }],
            { s with
              heap := s.heap ++ [mergedMap (deref s.heap r.tags) ms.Tag]
              clockReads := s.clockReads + 1
              trace := s.trace ++
                [Event.now, Event.snapshot name,
                 Event.append { Measurement := name ++ ".gauge", Tags := some s.heap.length,
                                Fields := [("value", .float64 ms.Value)],
                                Time := w.now s.clockReads },
                 Event.clear name] })) :=
  ⟨fun ms h => visit_gauge_eq w r name ms pts s h,
   fun ms h => visit_gaugeFloat64_eq w r name ms pts s h⟩

theorem set_gauge_one_point_then_clear_witness :
    exGauge.IsSet = true ∧ exGaugeFloat64.IsSet = true
    ∧ visit exWorld (exReporter []) "temp" (.Gauge exGauge) [] exSys
        = .ok ([{ Measurement := "temp.gauge", Tags := some 1,
                  Fields := [("value", .int64 10)], Time := 100 }],
            { exSys with
              heap := exSys.heap ++ [mergedMap (deref exSys.heap (some 0)) exGauge.Tag]
              clockReads := 1
              trace :=
                [Event.now, Event.snapshot "temp",
                 Event.append { Measurement := "temp.gauge", Tags := some 1,
                                Fields := [("value", .int64 10)], Time := 100 },
                 Event.clear "temp"] })
    ∧ visit exWorld (exReporter []) "load" (.GaugeFloat64 exGaugeFloat64) [] exSys
        = .ok ([{ Measurement := "load.gauge", Tags := some 1,
                  Fields := [("value", .float64 ⟨0x3FE0000000000000⟩)], Time := 100 }],
            { exSys with
              heap := exSys.heap ++ [mergedMap (deref exSys.heap (some 0)) none]
              clockReads := 1
              trace :=
                [Event.now, Event.snapshot "load",
                 Event.append { Measurement := "load.gauge", Tags := some 1,
                                Fields := [("value", .float64 ⟨0x3FE0000000000000⟩)],
                                Time := 100 },
                 Event.clear "load"] }) :=
  ⟨rfl, rfl,
   (set_gauge_one_point_then_clear exWorld (exReporter []) "temp" [] exSys).1 exGauge rfl,
   (set_gauge_one_point_then_clear exWorld (exReporter []) "load" [] exSys).2 exGaugeFloat64 rfl⟩

/-- Claim C3: for every Gauge, GaugeFloat64 and GaugeCollection whose snapshot
has `IsSet` false, the callback appends no point and never invokes `Clear`,
whatever the value, tag or readings: it only reads the clock and takes the
snapshot, and the heap of maps is untouched. -/
theorem unset_gauge_skipped (w : World) (r : reporter) (name : String)
    (pts : List Point) (s : Sys) :
    (∀ ms : GaugeSnapshot, ms.IsSet = false →
      visit w r name (.Gauge ms) pts s
        = .ok (pts, { s with clockReads := s.clockReads + 1
                             trace := s.trace ++ [Event.now, Event.snapshot name] }))
    ∧ (∀ ms : GaugeFloat64Snapshot, ms.IsSet = false →
      visit w r name (.GaugeFloat64 ms) pts s
        = .ok (pts, { s with clockReads := s.clockReads + 1
                             trace := s.trace ++ [Event.now, Event.snapshot name] }))
    ∧ (∀ ms : GaugeCollectionSnapshot, ms.IsSet = false →
      visit w r name (.GaugeCollection ms) pts s
        = .ok (pts, { s with clockReads := s.clockReads + 1
                             trace := s.trace ++ [Event.now, Event.snapshot name] })) := by
  refine ⟨?_, ?_, ?_⟩ <;> intro ms h <;> simp [visit, h, snapshot]

theorem unset_gauge_skipped_witness :
    visit exWorld (exReporter []) "temp" (.Gauge { exGauge with IsSet := false }) [] exSys
        = .ok ([], { exSys with clockReads := 1, trace := [Event.now, Event.snapshot "temp"] })
    ∧ visit exWorld (exReporter []) "temp"
          (.GaugeFloat64 { exGaugeFloat64 with IsSet := false }) [] exSys
        = .ok ([], { exSys with clockReads := 1, trace := [Event.now, Event.snapshot "temp"] })
    ∧ visit exWorld (exReporter []) "temp"
          (.GaugeCollection { exCollection with IsSet := false }) [] exSys
        = .ok ([], { exSys with clockReads := 1, trace := [Event.now, Event.snapshot "temp"] }) :=
  ⟨(unset_gauge_skipped exWorld (exReporter []) "temp" [] exSys).1
      { exGauge with IsSet := false } rfl,
   (unset_gauge_skipped exWorld (exReporter []) "temp" [] exSys).2.1
      { exGaugeFloat64 with IsSet := false } rfl,
   (unset_gauge_skipped exWorld (exReporter []) "temp" [] exSys).2.2
      { exCollection with IsSet := false } rfl⟩

/-- Claim C4: for every GaugeCollection whose snapshot has `IsSet` true and N
readings (N = 0 included), the callback appends exactly N points, in the order
of the readings; the i-th point has measurement the name followed by `.gauge`,
the only field `value` equal to the value of the i-th reading and the time of
the i-th reading (not the clock reading of the visit); `Clear` is invoked
exactly once, after all the appends, whatever N. -/
theorem collection_one_point_per_reading (w : World) (r : reporter) (name : String)
    (ms : GaugeCollectionSnapshot) (pts : List Point) (s : Sys) (h : ms.IsSet = true) :
    ∃ (new : List Point) (s' : Sys),
      visit w r name (.GaugeCollection ms) pts s = .ok (pts ++ new, s')
      ∧ new.length = ms.Readings.length
      ∧ (∀ (i : Nat) (hi : i < ms.Readings.length),
          new[i]? = some
            { Measurement := name ++ ".gauge"
              Tags := some (s.heap.length + i)
              Fields := [("value", (ms.Readings.get ⟨i, hi⟩).Reading)]
              Time := (ms.Readings.get ⟨i, hi⟩).Time })
      ∧ s'.trace = s.trace ++ [Event.now, Event.snapshot name]
          ++ new.map Event.append ++ [Event.clear name] := by
  refine ⟨_, _, visit_collection_eq w r name ms pts s h, by simp, ?_, rfl⟩
  intro i hi
  simp [List.getElem?_map, List.getElem?_enumFrom, List.getElem?_eq_getElem hi, readingPoint]

theorem collection_one_point_per_reading_witness :
    exCollection.IsSet = true
    ∧ ∃ (new : List Point) (s' : Sys),
      visit exWorld (exReporter []) "q" (.GaugeCollection exCollection) [] exSys
        = .ok ([] ++ new, s')
      ∧ new.length = exCollection.Readings.length
      ∧ (∀ (i : Nat) (hi : i < exCollection.Readings.length),
          new[i]? = some
            { Measurement := "q" ++ ".gauge"
              Tags := some (exSys.heap.length + i)
              Fields := [("value", (exCollection.Readings.get ⟨i, hi⟩).Reading)]
              Time := (exCollection.Readings.get ⟨i, hi⟩).Time })
      ∧ s'.trace = exSys.trace ++ [Event.now, Event.snapshot "q"]
          ++ new.map Event.append ++ [Event.clear "q"] :=
  ⟨rfl, collection_one_point_per_reading exWorld (exReporter []) "q" exCollection [] exSys rfl⟩

/-- Claim C5: for every base tag mapping and every set gauge snapshot or
reading of a set gauge collection, the tag mapping of the emitted point, read
in the state after the visit, is the merge of the base mapping with the
optional dynamic tag: with a dynamic tag (n, v) the key n maps to v and every
other key maps as in the base (a base entry with key n is overwritten);
without one it has exactly the keys and values of the base. For the readings
the base reference is nil or allocated, as every Go map is. -/
theorem point_tags_are_merge (w : World) (r : reporter) (name : String)
    (pts : List Point) (s : Sys) :
    (∀ ms : GaugeSnapshot, ms.IsSet = true →
      ∃ (p : Point) (s' : Sys), visit w r name (.Gauge ms) pts s = .ok (pts ++ [p], s')
        ∧ ∀ k, mapGet s'.heap p.Tags k = mergeSpec (mapGet s.heap r.tags) ms.Tag k)
    ∧ (∀ ms : GaugeFloat64Snapshot, ms.IsSet = true →
      ∃ (p : Point) (s' : Sys), visit w r name (.GaugeFloat64 ms) pts s = .ok (pts ++ [p], s')
        ∧ ∀ k, mapGet s'.heap p.Tags k = mergeSpec (mapGet s.heap r.tags) ms.Tag k)
    ∧ (∀ ms : GaugeCollectionSnapshot, ms.IsSet = true → allocated s.heap r.tags = true →
      ∃ (new : List Point) (s' : Sys),
        visit w r name (.GaugeCollection ms) pts s = .ok (pts ++ new, s')
        ∧ new.length = ms.Readings.length
        ∧ ∀ (i : Nat) (hi : i < ms.Readings.length), ∃ p, new[i]? = some p
          ∧ ∀ k, mapGet s'.heap p.Tags k
              = mergeSpec (mapGet s.heap r.tags) (ms.Readings.get ⟨i, hi⟩).Tag k) := by
  refine ⟨?_, ?_, ?_⟩
  · intro ms h
    exact ⟨_, _, visit_gauge_eq w r name ms pts s h,
      fun k => mapGet_mergeTags s.heap r.tags ms.Tag k⟩
  · intro ms h
    exact ⟨_, _, visit_gaugeFloat64_eq w r name ms pts s h,
      fun k => mapGet_mergeTags s.heap r.tags ms.Tag k⟩
  · intro ms h hal
    refine ⟨_, _, visit_collection_eq w r name ms pts s h, by simp, ?_⟩
    intro i hi
    refine ⟨readingPoint name (s.heap.length + i, ms.Readings.get ⟨i, hi⟩), ?_, ?_⟩
    · simp [List.getElem?_map, List.getElem?_enumFrom, List.getElem?_eq_getElem hi]
    · intro k
      simp only [readingsHeap_closed r.tags ms.Readings s.heap hal, mapGet, deref, readingPoint]
      rw [List.getD_eq_getElem?_getD, List.getElem?_append_right (by omega)]
      simp [List.getElem?_map, List.getElem?_eq_getElem hi, mergedMap_lookup, mergeSpec, deref,
        mapGet]

theorem point_tags_are_merge_witness :
    exGauge.IsSet = true ∧ exGaugeFloat64.IsSet = true ∧ exCollection.IsSet = true
    ∧ allocated exSys.heap (exReporter []).tags = true
    ∧ (∃ (p : Point) (s' : Sys),
        visit exWorld (exReporter []) "temp" (.Gauge exGauge) [] exSys = .ok ([] ++ [p], s')
        ∧ ∀ k, mapGet s'.heap p.Tags k
            = mergeSpec (mapGet exSys.heap (exReporter []).tags) exGauge.Tag k)
    ∧ (∃ (p : Point) (s' : Sys),
        visit exWorld (exReporter []) "temp" (.GaugeFloat64 exGaugeFloat64) [] exSys
          = .ok ([] ++ [p], s')
        ∧ ∀ k, mapGet s'.heap p.Tags k
            = mergeSpec (mapGet exSys.heap (exReporter []).tags) exGaugeFloat64.Tag k)
    ∧ (∃ (new : List Point) (s' : Sys),
        visit exWorld (exReporter []) "temp" (.GaugeCollection exCollection) [] exSys
          = .ok ([] ++ new, s')
        ∧ new.length = exCollection.Readings.length
        ∧ ∀ (i : Nat) (hi : i < exCollection.Readings.length), ∃ p, new[i]? = some p
          ∧ ∀ k, mapGet s'.heap p.Tags k
              = mergeSpec (mapGet exSys.heap (exReporter []).tags)
                  (exCollection.Readings.get ⟨i, hi⟩).Tag k) :=
  ⟨rfl, rfl, rfl, rfl,
   (point_tags_are_merge exWorld (exReporter []) "temp" [] exSys).1 exGauge rfl,
   (point_tags_are_merge exWorld (exReporter []) "temp" [] exSys).2.1 exGaugeFloat64 rfl,
   (point_tags_are_merge exWorld (exReporter []) "temp" [] exSys).2.2 exCollection rfl rfl⟩

/-- Claim C6: the tag merge is non-destructive. After a call of `send` that
returns, the base tag mapping of the reporter has the same keys and values as
before the call, whatever the registry holds (dynamic tags with the name of a
base tag included); and the tag mapping of a point produced earlier in the
tick, by the visit of a prefix of the registry, is at the end of the call what
it was when that prefix had been visited: no later point changes it. -/
theorem send_keeps_base_tags (w : World) (r : reporter) (s s' : Sys) (err : Option Error)
    (hr : allocated s.heap r.tags = true) (h : send w r s = .ok (s', err)) :
    deref s'.heap r.tags = deref s.heap r.tags
    ∧ ∀ (es1 es2 : Registry) (pts1 : List Point) (s1 : Sys),
        r.reg = es1 ++ es2 → each w r es1 [] s = .ok (pts1, s1) →
        ∀ p ∈ pts1, deref s'.heap p.Tags = deref s1.heap p.Tags := by
  obtain ⟨pts, s2, c, he, _, rfl, _⟩ := send_inv w r s s' err h
  constructor
  · obtain ⟨_, l, _, hh, _, _, _⟩ := each_frame w r r.reg [] pts s s2 he
    show deref s2.heap r.tags = _
    rw [hh]; exact deref_append s.heap l r.tags hr
  · intro es1 es2 pts1 s1 hreg h1 p hp
    rw [hreg, each_append, h1] at he
    simp only [Except.bind] at he
    obtain ⟨new1, _, hp1, _, _, _, ha1⟩ := each_frame w r es1 [] pts1 s s1 h1
    obtain ⟨_, l2, _, hh2, _, _, _⟩ := each_frame w r es2 pts1 pts s1 s2 he
    show deref s2.heap p.Tags = _
    rw [hh2]
    refine deref_append s1.heap l2 p.Tags (ha1 hr p ?_)
    simpa [hp1] using hp

theorem send_keeps_base_tags_witness :
    allocated exSys.heap (exReporter counterThenGauge).tags = true
    ∧ send exWorld (exReporter counterThenGauge) exSys
        = .ok (sendFinal exWorld (exReporter counterThenGauge) exSys, none)
    ∧ deref (sendFinal exWorld (exReporter counterThenGauge) exSys).heap
          (exReporter counterThenGauge).tags
        = deref exSys.heap (exReporter counterThenGauge).tags
    ∧ ∀ (es1 es2 : Registry) (pts1 : List Point) (s1 : Sys),
        (exReporter counterThenGauge).reg = es1 ++ es2 →
        each exWorld (exReporter counterThenGauge) es1 [] exSys = .ok (pts1, s1) →
        ∀ p ∈ pts1,
          deref (sendFinal exWorld (exReporter counterThenGauge) exSys).heap p.Tags
            = deref s1.heap p.Tags :=
  ⟨rfl, rfl,
    send_keeps_base_tags exWorld (exReporter counterThenGauge) exSys
      (sendFinal exWorld (exReporter counterThenGauge) exSys) none rfl rfl⟩

/-- Claim C7, as stated, fails: with two counters in the registry and a clock
that advances between two readings, the two points of the one batch that
`send` writes carry different timestamps (100 and 101), because the callback
reads the clock at every visit. -/
theorem tick_timestamps_differ :
    ∃ (s' : Sys) (c : Handle) (p q : Point),
      send exWorld (exReporter twoCounters) exSys = .ok (s', none)
      ∧ s'.trace.getLast? = some (Event.write c { Points := [p, q], Database := "metrics" })
      ∧ p.Measurement = "a.count" ∧ q.Measurement = "b.count"
      ∧ p.Time = 100 ∧ q.Time = 101 ∧ p.Time ≠ q.Time :=
  ⟨_, _, _, _, rfl, rfl, rfl, rfl, rfl, rfl, by decide⟩

/-- Claim C7, amended: a call of `send` that returns has read the clock once
per visited registry entry, and the batch it has written carries, in visit
order, for every Counter, Histogram, Meter, Timer, set Gauge and set
GaugeFloat64 the clock reading made at the visit of that very entry (the
entry number j of the visit carries the reading number j of the call), and
for the readings of a set GaugeCollection their own times. -/
theorem point_time_is_own_visit_reading (w : World) (r : reporter) (s s' : Sys)
    (err : Option Error) (h : send w r s = .ok (s', err)) :
    ∃ (c : Handle) (pts : List Point),
      s'.trace.getLast? = some (Event.write c { Points := pts, Database := r.database })
      ∧ s'.clockReads = s.clockReads + r.reg.length
      ∧ pts.map Point.Time = tickTimes w s.clockReads r.reg := by
  obtain ⟨pts, s2, c, he, _, rfl, _⟩ := send_inv w r s s' err h
  obtain ⟨new, _, hp, _, hc, ht, _⟩ := each_frame w r r.reg [] pts s s2 he
  refine ⟨c, pts, by simp, hc, ?_⟩
  rw [hp]; simpa using ht

theorem point_time_is_own_visit_reading_witness :
    send exWorld (exReporter counterThenGauge) exSys
        = .ok (sendFinal exWorld (exReporter counterThenGauge) exSys, none)
    ∧ ∃ (c : Handle) (pts : List Point),
      (sendFinal exWorld (exReporter counterThenGauge) exSys).trace.getLast?
        = some (Event.write c { Points := pts, Database := (exReporter counterThenGauge).database })
      ∧ (sendFinal exWorld (exReporter counterThenGauge) exSys).clockReads
        = exSys.clockReads + (exReporter counterThenGauge).reg.length
      ∧ pts.map Point.Time = tickTimes exWorld exSys.clockReads (exReporter counterThenGauge).reg :=
  ⟨rfl, point_time_is_own_visit_reading exWorld (exReporter counterThenGauge) exSys
      (sendFinal exWorld (exReporter counterThenGauge) exSys) none rfl⟩

/-- Claim C8: `makeClient` calls `NewClient` once, on the url, username and
password of the reporter, assigns the handle it returns to `reporter.client`
and returns its error. The client that the reporter is built on returns a
handle and no error from every `NewClient` (the hypothesis). So `makeClient`
never returns an error: there is no call in which the creation fails and the
handle held before is lost, and after every call the reporter holds a handle,
never the nil one. No other field of the reporter changes, the registry
included, and the state only records the call. -/
theorem makeClient_never_drops_handle (w : World) (r : reporter) (s : Sys)
    (hreal : ∀ k cfg, ∃ c, w.newClient k cfg = (some c, none)) :
    (makeClient w r s).2.2
        = (w.newClient s.newClientCalls
            { URL := r.url, Username := r.username, Password := r.password }).2
    ∧ (makeClient w r s).1.client
        = (w.newClient s.newClientCalls
            { URL := r.url, Username := r.username, Password := r.password }).1
    ∧ (makeClient w r s).2.2 = none
    ∧ (∀ e, (makeClient w r s).2.2 = some e → (makeClient w r s).1.client = r.client)
    ∧ (∃ c, (makeClient w r s).1.client = some c)
    ∧ (makeClient w r s).1.reg = r.reg
    ∧ (makeClient w r s).1.interval = r.interval
    ∧ (makeClient w r s).1.url = r.url
    ∧ (makeClient w r s).1.database = r.database
    ∧ (makeClient w r s).1.username = r.username
    ∧ (makeClient w r s).1.password = r.password
    ∧ (makeClient w r s).1.tags = r.tags
    ∧ (makeClient w r s).2.1
        = { s with
            newClientCalls := s.newClientCalls + 1
            trace := s.trace
              ++ [Event.newClient
                    { URL := r.url, Username := r.username, Password := r.password }] } := by
  obtain ⟨c, hc⟩ := hreal s.newClientCalls
    { URL := r.url, Username := r.username, Password := r.password }
  have herr : (makeClient w r s).2.2 = none := by
    show (w.newClient s.newClientCalls
      { URL := r.url, Username := r.username, Password := r.password }).2 = none
    rw [hc]
  refine ⟨rfl, rfl, herr, ?_, ⟨c, ?_⟩, rfl, rfl, rfl, rfl, rfl, rfl, rfl, rfl⟩
  · intro e he
    rw [herr] at he
    exact absurd he (by simp)
  · show (w.newClient s.newClientCalls
      { URL := r.url, Username := r.username, Password := r.password }).1 = some c
    rw [hc]

theorem makeClient_never_drops_handle_witness :
    (∀ k cfg, ∃ c, rebuildWorld.newClient k cfg = (some c, none))
    ∧ (makeClient rebuildWorld (exReporter twoCounters) exSys).2.2 = none
    ∧ (makeClient rebuildWorld (exReporter twoCounters) exSys).1.client = some 2
    ∧ (makeClient rebuildWorld (exReporter twoCounters) exSys).1.reg
        = (exReporter twoCounters).reg
    ∧ (makeClient rebuildWorld (exReporter twoCounters) exSys).2.1
        = { exSys with
            newClientCalls := exSys.newClientCalls + 1
            trace := exSys.trace
              ++ [Event.newClient
                    { URL := (exReporter twoCounters).url
                      Username := (exReporter twoCounters).username
                      Password := (exReporter twoCounters).password }] } :=
  ⟨fun _ _ => ⟨2, rfl⟩,
   (makeClient_never_drops_handle rebuildWorld (exReporter twoCounters) exSys
      (fun _ _ => ⟨2, rfl⟩)).2.2.1,
   (makeClient_never_drops_handle rebuildWorld (exReporter twoCounters) exSys
      (fun _ _ => ⟨2, rfl⟩)).2.1,
   (makeClient_never_drops_handle rebuildWorld (exReporter twoCounters) exSys
      (fun _ _ => ⟨2, rfl⟩)).2.2.2.2.2.1,
   (makeClient_never_drops_handle rebuildWorld (exReporter twoCounters) exSys
      (fun _ _ => ⟨2, rfl⟩)).2.2.2.2.2.2.2.2.2.2.2.2⟩

/-- Claim C9: for every Histogram, whatever its state, the callback appends
exactly one point, with measurement the name followed by `.histogram`, the
base tags of the reporter, and exactly the twelve fields count, max, mean,
min, stddev, variance, p50, p75, p95, p99, p999, p9999: the first six are
Count, Max, Mean, Min, StdDev and Variance of the snapshot, the last six are,
in that order, the results of `Percentiles` on the quantiles 0.5, 0.75, 0.95,
0.99, 0.999, 0.9999. The hypothesis names these six results: `Percentiles`
returns one result for each quantile it is given. -/
theorem histogram_one_point (w : World) (r : reporter) (name : String) (ms : HistogramSnapshot)
    (pts : List Point) (s : Sys) (p50 p75 p95 p99 p999 p9999 : F64) (rest : List F64)
    (hps : ms.Percentiles
        [⟨0x3FE0000000000000⟩, ⟨0x3FE8000000000000⟩, ⟨0x3FEE666666666666⟩,
         ⟨0x3FEFAE147AE147AE⟩, ⟨0x3FEFF7CED916872B⟩, ⟨0x3FEFFF2E48E8A71E⟩]
      = p50 :: p75 :: p95 :: p99 :: p999 :: p9999 :: rest) :
    visit w r name (.Histogram ms) pts s
      = .ok (pts ++ [{ Measurement := name ++ ".histogram", Tags := r.tags,
                       Fields :=
                         [("count", .int64 ms.Count), ("max", .int64 ms.Max),
                          ("mean", .float64 ms.Mean), ("min", .int64 ms.Min),
                          ("stddev", .float64 ms.StdDev), ("variance", .float64 ms.Variance),
                          ("p50", .float64 p50), ("p75", .float64 p75), ("p95", .float64 p95),
                          ("p99", .float64 p99), ("p999", .float64 p999),
                          ("p9999", .float64 p9999)],
                       Time := w.now s.clockReads }],
          { s with
            clockReads := s.clockReads + 1
            trace := s.trace ++
              [Event.now, Event.snapshot name,
               Event.append { Measurement := name ++ ".histogram", Tags := r.tags,
                              Fields :=
                                [("count", .int64 ms.Count), ("max", .int64 ms.Max),
                                 ("mean", .float64 ms.Mean), ("min", .int64 ms.Min),
                                 ("stddev", .float64 ms.StdDev),
                                 ("variance", .float64 ms.Variance),
                                 ("p50", .float64 p50), ("p75", .float64 p75),
                                 ("p95", .float64 p95), ("p99", .float64 p99),
                                 ("p999", .float64 p999), ("p9999", .float64 p9999)],
                              Time := w.now s.clockReads }] }) :=
  visit_histogram_eq w r name ms pts s p50 p75 p95 p99 p999 p9999 rest hps

theorem histogram_one_point_witness :
    exHistogram.Percentiles
        [⟨0x3FE0000000000000⟩, ⟨0x3FE8000000000000⟩, ⟨0x3FEE666666666666⟩,
         ⟨0x3FEFAE147AE147AE⟩, ⟨0x3FEFF7CED916872B⟩, ⟨0x3FEFFF2E48E8A71E⟩]
      = ⟨0x3FE0000000000000⟩ :: ⟨0x3FE8000000000000⟩ :: ⟨0x3FEE666666666666⟩
        :: ⟨0x3FEFAE147AE147AE⟩ :: ⟨0x3FEFF7CED916872B⟩ :: ⟨0x3FEFFF2E48E8A71E⟩ :: []
    ∧ ∃ (p : Point) (s' : Sys),
      visit exWorld (exReporter []) "lat" (.Histogram exHistogram) [] exSys = .ok ([p], s')
      ∧ p.Measurement = "lat.histogram"
      ∧ p.Fields.map Prod.fst
          = ["count", "max", "mean", "min", "stddev", "variance",
             "p50", "p75", "p95", "p99", "p999", "p9999"]
      ∧ s'.trace = [Event.now, Event.snapshot "lat", Event.append p] :=
  ⟨rfl, _, _,
   histogram_one_point exWorld (exReporter []) "lat" exHistogram [] exSys _ _ _ _ _ _ _ rfl,
   rfl, rfl, rfl⟩

/-- Claim C10: for every Timer, whatever its state, the callback appends
exactly one point, with measurement the name followed by `.timer`, the base
tags of the reporter, and exactly the sixteen fields count, max, mean, min,
stddev, variance, p50, p75, p95, p99, p999, p9999, m1, m5, m15, meanrate:
mean is Mean, meanrate is RateMean, m1, m5, m15 are Rate1, Rate5, Rate15, and
the six percentile keys receive, in order, the results of `Percentiles` on the
quantiles 0.5, 0.75, 0.95, 0.99, 0.999, 0.9999. The hypothesis names these six
results: `Percentiles` returns one result for each quantile it is given. -/
theorem timer_one_point (w : World) (r : reporter) (name : String) (ms : TimerSnapshot)
    (pts : List Point) (s : Sys) (p50 p75 p95 p99 p999 p9999 : F64) (rest : List F64)
    (hps : ms.Percentiles
        [⟨0x3FE0000000000000⟩, ⟨0x3FE8000000000000⟩, ⟨0x3FEE666666666666⟩,
         ⟨0x3FEFAE147AE147AE⟩, ⟨0x3FEFF7CED916872B⟩, ⟨0x3FEFFF2E48E8A71E⟩]
      = p50 :: p75 :: p95 :: p99 :: p999 :: p9999 :: rest) :
    visit w r name (.Timer ms) pts s
      = .ok (pts ++ [{ Measurement := name ++ ".timer", Tags := r.tags,
                       Fields :=
                         [("count", .int64 ms.Count), ("max", .int64 ms.Max),
                          ("mean", .float64 ms.Mean), ("min", .int64 ms.Min),
                          ("stddev", .float64 ms.StdDev), ("variance", .float64 ms.Variance),
                          ("p50", .float64 p50), ("p75", .float64 p75), ("p95", .float64 p95),
                          ("p99", .float64 p99), ("p999", .float64 p999),
                          ("p9999", .float64 p9999),
                          ("m1", .float64 ms.Rate1), ("m5", .float64 ms.Rate5),
                          ("m15", .float64 ms.Rate15), ("meanrate", .float64 ms.RateMean)],
                       Time := w.now s.clockReads }],
          { s with
            clockReads := s.clockReads + 1
            trace := s.trace ++
              [Event.now, Event.snapshot name,
               Event.append { Measurement := name ++ ".timer", Tags := r.tags,
                              Fields :=
                                [("count", .int64 ms.Count), ("max", .int64 ms.Max),
                                 ("mean", .float64 ms.Mean), ("min", .int64 ms.Min),
                                 ("stddev", .float64 ms.StdDev),
                                 ("variance", .float64 ms.Variance),
                                 ("p50", .float64 p50), ("p75", .float64 p75),
                                 ("p95", .float64 p95), ("p99", .float64 p99),
                                 ("p999", .float64 p999), ("p9999", .float64 p9999),
                                 ("m1", .float64 ms.Rate1), ("m5", .float64 ms.Rate5),
                                 ("m15", .float64 ms.Rate15),
                                 ("meanrate", .float64 ms.RateMean)],
                              Time := w.now s.clockReads }] }) :=
  visit_timer_eq w r name ms pts s p50 p75 p95 p99 p999 p9999 rest hps

theorem timer_one_point_witness :
    exTimer.Percentiles
        [⟨0x3FE0000000000000⟩, ⟨0x3FE8000000000000⟩, ⟨0x3FEE666666666666⟩,
         ⟨0x3FEFAE147AE147AE⟩, ⟨0x3FEFF7CED916872B⟩, ⟨0x3FEFFF2E48E8A71E⟩]
      = ⟨0x3FE0000000000000⟩ :: ⟨0x3FE8000000000000⟩ :: ⟨0x3FEE666666666666⟩
        :: ⟨0x3FEFAE147AE147AE⟩ :: ⟨0x3FEFF7CED916872B⟩ :: ⟨0x3FEFFF2E48E8A71E⟩ :: []
    ∧ ∃ (p : Point) (s' : Sys),
      visit exWorld (exReporter []) "rpc" (.Timer exTimer) [] exSys = .ok ([p], s')
      ∧ p.Measurement = "rpc.timer"
      ∧ p.Fields.map Prod.fst
          = ["count", "max", "mean", "min", "stddev", "variance",
             "p50", "p75", "p95", "p99", "p999", "p9999", "m1", "m5", "m15", "meanrate"]
      ∧ s'.trace = [Event.now, Event.snapshot "rpc", Event.append p] :=
  ⟨rfl, _, _,
   timer_one_point exWorld (exReporter []) "rpc" exTimer [] exSys _ _ _ _ _ _ _ rfl,
   rfl, rfl, rfl⟩

/-! ## Lemmas on the whole tick -/

theorem visit_normal (w : World) (r : reporter) (name : String) (i : Metric)
    (pts : List Point) (s : Sys) :
    visit w r name i pts s
      = (visit (clockAt (w.now s.clockReads)) r name i [] (blank s.heap)).map (rebase pts s) := by
  cases i with
  | Counter ms => simp [visit, appendPoint, snapshot, Except.map, rebase, clockAt, blank]
  | Meter ms => simp [visit, appendPoint, snapshot, Except.map, rebase, clockAt, blank]
  | Other => simp [visit, Except.map, rebase, clockAt, blank]
  | Gauge ms =>
    cases hset : ms.IsSet <;>
      simp [visit, hset, mergeTags_eq, appendPoint, snapshot, clear, bind, Except.bind,
        Except.map, rebase, clockAt, blank]
  | GaugeFloat64 ms =>
    cases hset : ms.IsSet <;>
      simp [visit, hset, mergeTags_eq, appendPoint, snapshot, clear, bind, Except.bind,
        Except.map, rebase, clockAt, blank]
  | GaugeCollection ms =>
    cases hset : ms.IsSet with
    | false => simp [visit, hset, snapshot, Except.map, rebase, clockAt, blank]
    | true =>
      rw [visit_collection_eq w r name ms pts s hset,
        visit_collection_eq _ r name ms [] (blank s.heap) hset]
      simp [Except.map, rebase, clockAt, blank]
  | Histogram ms =>
    rcases hps : ms.Percentiles quantiles with
      _ | ⟨p50, _ | ⟨p75, _ | ⟨p95, _ | ⟨p99, _ | ⟨p999, _ | ⟨p9999, rest⟩⟩⟩⟩⟩⟩ <;>
      simp [visit, hps, index, appendPoint, snapshot, bind, Except.bind, Except.map, rebase,
        clockAt, blank]
  | Timer ms =>
    rcases hps : ms.Percentiles quantiles with
      _ | ⟨p50, _ | ⟨p75, _ | ⟨p95, _ | ⟨p99, _ | ⟨p999, _ | ⟨p9999, rest⟩⟩⟩⟩⟩⟩ <;>
      simp [visit, hps, index, appendPoint, snapshot, bind, Except.bind, Except.map, rebase,
        clockAt, blank]

theorem visit_acc (w : World) (r : reporter) (name : String) (i : Metric)
    (pts : List Point) (s : Sys) :
    visit w r name i pts s
      = (visit w r name i [] s).map (fun x => (pts ++ x.1, x.2)) := by
  rw [visit_normal w r name i pts s, visit_normal w r name i [] s]
  cases visit (clockAt (w.now s.clockReads)) r name i [] (blank s.heap) with
  | error e => rfl
  | ok x => simp [Except.map, rebase]

theorem visit_sim (w w' : World) (r : reporter) (name : String) (i : Metric)
    (pts : List Point) (s t : Sys) (hh : s.heap = t.heap)
    (hn : w.now s.clockReads = w'.now t.clockReads) :
    (visit w r name i pts s).map pointsAndHeap = (visit w' r name i pts t).map pointsAndHeap := by
  rw [visit_normal w r name i pts s, visit_normal w' r name i pts t, hh, hn]
  cases visit (clockAt (w'.now t.clockReads)) r name i [] (blank t.heap) with
  | error e => rfl
  | ok x => simp [Except.map, rebase, pointsAndHeap]

theorem visit_congr_now (w w' : World) (r : reporter) (name : String) (i : Metric)
    (pts : List Point) (s : Sys) (hn : w'.now = w.now) :
    visit w' r name i pts s = visit w r name i pts s := by
  rw [visit_normal w r name i pts s, visit_normal w' r name i pts s, hn]

theorem each_congr_now (w w' : World) (r : reporter) (hn : w'.now = w.now) (es : Registry) :
    ∀ (pts : List Point) (s : Sys), each w' r es pts s = each w r es pts s := by
  induction es with
  | nil => intro pts s; rfl
  | cons e es ih =>
    intro pts s
    obtain ⟨name, i⟩ := e
    simp only [each, visit_congr_now w w' r name i pts s hn]
    cases visit w r name i pts s with
    | error e => rfl
    | ok x => simp [bind, Except.bind, ih]

theorem each_translate (w : World) (r : reporter) (es : Registry) :
    ∀ (pts : List Point) (s : Sys),
      each w r es pts s = (translateAll w r es s).map (fun x => (pts ++ x.1, x.2)) := by
  induction es with
  | nil => intro pts s; simp [each, translateAll, Except.map]
  | cons e es ih =>
    intro pts s
    obtain ⟨name, i⟩ := e
    simp only [each, translateAll]
    rw [visit_acc w r name i pts s]
    cases visit w r name i [] s with
    | error e => rfl
    | ok x =>
      obtain ⟨new, s1⟩ := x
      simp only [Except.map, bind, Except.bind]
      rw [ih (pts ++ new) s1]
      cases translateAll w r es s1 with
      | error e => rfl
      | ok y => simp [Except.map]

theorem writesIn_append (a b : List Event) : writesIn (a ++ b) = writesIn a ++ writesIn b := by
  simp [writesIn, List.filterMap_append]

theorem cleared_append (a b : List Event) : cleared (a ++ b) = cleared a ++ cleared b := by
  simp [cleared, List.filterMap_append]

theorem writesIn_map_append (ps : List Point) : writesIn (ps.map Event.append) = [] := by
  induction ps with
  | nil => rfl
  | cons p ps ih => simp [writesIn]

theorem cleared_map_append (ps : List Point) : cleared (ps.map Event.append) = [] := by
  induction ps with
  | nil => rfl
  | cons p ps ih => simp [cleared]

theorem visit_counters (w : World) (r : reporter) (name : String) (i : Metric)
    (pts pts' : List Point) (s s' : Sys) (h : visit w r name i pts s = .ok (pts', s')) :
    s'.writeCalls = s.writeCalls ∧ s'.pingCalls = s.pingCalls
    ∧ s'.newClientCalls = s.newClientCalls := by
  rw [visit_normal] at h
  cases hv : visit (clockAt (w.now s.clockReads)) r name i [] (blank s.heap) with
  | error e => simp [hv, Except.map] at h
  | ok x =>
    simp only [hv, Except.map, rebase, Except.ok.injEq, Prod.mk.injEq] at h
    obtain ⟨_, rfl⟩ := h
    exact ⟨rfl, rfl, rfl⟩

theorem visit_events (w : World) (r : reporter) (name : String) (i : Metric)
    (pts pts' : List Point) (s s' : Sys) (h : visit w r name i pts s = .ok (pts', s')) :
    writesIn s'.trace = writesIn s.trace
    ∧ cleared s'.trace = cleared s.trace ++ clearedBy [(name, i)] := by
  cases i with
  | Counter ms =>
    simp only [visit, appendPoint, snapshot, Except.ok.injEq, Prod.mk.injEq] at h
    obtain ⟨_, rfl⟩ := h
    simp [writesIn, cleared, clearedBy, List.filterMap_append]
  | Meter ms =>
    simp only [visit, appendPoint, snapshot, Except.ok.injEq, Prod.mk.injEq] at h
    obtain ⟨_, rfl⟩ := h
    simp [writesIn, cleared, clearedBy, List.filterMap_append]
  | Other =>
    simp only [visit, Except.ok.injEq, Prod.mk.injEq] at h
    obtain ⟨_, rfl⟩ := h
    simp [writesIn, cleared, clearedBy, List.filterMap_append]
  | Gauge ms =>
    cases hset : ms.IsSet with
    | false =>
      simp only [visit, hset, snapshot, Except.ok.injEq, Prod.mk.injEq] at h
      obtain ⟨_, rfl⟩ := h
      simp [writesIn, cleared, clearedBy, List.filterMap_append, hset]
    | true =>
      rw [visit_gauge_eq w r name ms pts s hset] at h
      simp only [Except.ok.injEq, Prod.mk.injEq] at h
      obtain ⟨_, rfl⟩ := h
      simp [writesIn, cleared, clearedBy, List.filterMap_append, hset]
  | GaugeFloat64 ms =>
    cases hset : ms.IsSet with
    | false =>
      simp only [visit, hset, snapshot, Except.ok.injEq, Prod.mk.injEq] at h
      obtain ⟨_, rfl⟩ := h
      simp [writesIn, cleared, clearedBy, List.filterMap_append, hset]
    | true =>
      rw [visit_gaugeFloat64_eq w r name ms pts s hset] at h
      simp only [Except.ok.injEq, Prod.mk.injEq] at h
      obtain ⟨_, rfl⟩ := h
      simp [writesIn, cleared, clearedBy, List.filterMap_append, hset]
  | GaugeCollection ms =>
    cases hset : ms.IsSet with
    | false =>
      simp only [visit, hset, snapshot, Except.ok.injEq, Prod.mk.injEq] at h
      obtain ⟨_, rfl⟩ := h
      simp [writesIn, cleared, clearedBy, List.filterMap_append, hset]
    | true =>
      rw [visit_collection_eq w r name ms pts s hset] at h
      simp only [Except.ok.injEq, Prod.mk.injEq] at h
      obtain ⟨_, rfl⟩ := h
      simp only [writesIn_append, cleared_append, writesIn_map_append, cleared_map_append]
      simp [writesIn, cleared, clearedBy, hset]
  | Histogram ms =>
    rcases hps : ms.Percentiles quantiles with
      _ | ⟨p50, _ | ⟨p75, _ | ⟨p95, _ | ⟨p99, _ | ⟨p999, _ | ⟨p9999, rest⟩⟩⟩⟩⟩⟩
    all_goals first
      | (simp [visit, hps, index, bind, Except.bind] at h; done)
      | (rw [visit_histogram_eq w r name ms pts s _ _ _ _ _ _ _ hps] at h
         simp only [Except.ok.injEq, Prod.mk.injEq] at h
         obtain ⟨_, rfl⟩ := h
         simp [writesIn, cleared, clearedBy, List.filterMap_append])
  | Timer ms =>
    rcases hps : ms.Percentiles quantiles with
      _ | ⟨p50, _ | ⟨p75, _ | ⟨p95, _ | ⟨p99, _ | ⟨p999, _ | ⟨p9999, rest⟩⟩⟩⟩⟩⟩
    all_goals first
      | (simp [visit, hps, index, bind, Except.bind] at h; done)
      | (rw [visit_timer_eq w r name ms pts s _ _ _ _ _ _ _ hps] at h
         simp only [Except.ok.injEq, Prod.mk.injEq] at h
         obtain ⟨_, rfl⟩ := h
         simp [writesIn, cleared, clearedBy, List.filterMap_append])

theorem clearedBy_cons (e : String × Metric) (es : Registry) :
    clearedBy (e :: es) = clearedBy [e] ++ clearedBy es := by
  obtain ⟨name, i⟩ := e
  cases i <;> simp [clearedBy]

theorem each_events (w : World) (r : reporter) (es : Registry) :
    ∀ (pts pts' : List Point) (s s' : Sys), each w r es pts s = .ok (pts', s') →
      writesIn s'.trace = writesIn s.trace
      ∧ cleared s'.trace = cleared s.trace ++ clearedBy es
      ∧ s'.writeCalls = s.writeCalls ∧ s'.pingCalls = s.pingCalls
      ∧ s'.newClientCalls = s.newClientCalls := by
  induction es with
  | nil =>
    intro pts pts' s s' h
    simp only [each, Except.ok.injEq, Prod.mk.injEq] at h
    obtain ⟨_, rfl⟩ := h
    simp [clearedBy]
  | cons e es ih =>
    intro pts pts' s s' h
    obtain ⟨name, i⟩ := e
    simp only [each, bind, Except.bind] at h
    cases hv : visit w r name i pts s with
    | error e => simp [hv] at h
    | ok res =>
      obtain ⟨pts1, s1⟩ := res
      simp only [hv] at h
      obtain ⟨hw1, hc1⟩ := visit_events w r name i pts pts1 s s1 hv
      obtain ⟨ha, hb, hc⟩ := visit_counters w r name i pts pts1 s s1 hv
      obtain ⟨hw2, hc2, ha2, hb2, hd2⟩ := ih pts1 pts' s1 s' h
      refine ⟨by rw [hw2, hw1], ?_, by rw [ha2, ha], by rw [hb2, hb], by rw [hd2, hc]⟩
      rw [hc2, hc1, clearedBy_cons (name, i) es, List.append_assoc]

theorem visit_total (w : World) (r : reporter) (name : String) (i : Metric)
    (pts : List Point) (s : Sys) (h : sixPercentiles i = true) :
    ∃ x, visit w r name i pts s = .ok x := by
  cases i with
  | Counter ms => exact ⟨_, rfl⟩
  | Meter ms => exact ⟨_, rfl⟩
  | Other => exact ⟨_, rfl⟩
  | Gauge ms =>
    cases hset : ms.IsSet with
    | false => exact ⟨_, by simp [visit, hset]; rfl⟩
    | true => exact ⟨_, visit_gauge_eq w r name ms pts s hset⟩
  | GaugeFloat64 ms =>
    cases hset : ms.IsSet with
    | false => exact ⟨_, by simp [visit, hset]; rfl⟩
    | true => exact ⟨_, visit_gaugeFloat64_eq w r name ms pts s hset⟩
  | GaugeCollection ms =>
    cases hset : ms.IsSet with
    | false => exact ⟨_, by simp [visit, hset]; rfl⟩
    | true => exact ⟨_, visit_collection_eq w r name ms pts s hset⟩
  | Histogram ms =>
    simp only [sixPercentiles, decide_eq_true_eq] at h
    rcases hps : ms.Percentiles quantiles with
      _ | ⟨p50, _ | ⟨p75, _ | ⟨p95, _ | ⟨p99, _ | ⟨p999, _ | ⟨p9999, rest⟩⟩⟩⟩⟩⟩
    all_goals first
      | (rw [hps] at h; simp at h; done)
      | exact ⟨_, visit_histogram_eq w r name ms pts s _ _ _ _ _ _ _ hps⟩
  | Timer ms =>
    simp only [sixPercentiles, decide_eq_true_eq] at h
    rcases hps : ms.Percentiles quantiles with
      _ | ⟨p50, _ | ⟨p75, _ | ⟨p95, _ | ⟨p99, _ | ⟨p999, _ | ⟨p9999, rest⟩⟩⟩⟩⟩⟩
    all_goals first
      | (rw [hps] at h; simp at h; done)
      | exact ⟨_, visit_timer_eq w r name ms pts s _ _ _ _ _ _ _ hps⟩

theorem each_total (w : World) (r : reporter) (es : Registry) :
    ∀ (pts : List Point) (s : Sys), (∀ e ∈ es, sixPercentiles e.2 = true) →
      ∃ x, each w r es pts s = .ok x := by
  induction es with
  | nil => intro pts s _; exact ⟨_, rfl⟩
  | cons e es ih =>
    intro pts s h
    obtain ⟨name, i⟩ := e
    obtain ⟨⟨pts1, s1⟩, hv⟩ := visit_total w r name i pts s (h (name, i) (by simp))
    obtain ⟨x, hx⟩ := ih pts1 s1 (fun e he => h e (by simp [he]))
    exact ⟨x, by simp [each, hv, bind, Except.bind, hx]⟩

theorem each_sim (w w' : World) (r : reporter) (es : Registry) :
    ∀ (pts : List Point) (s t : Sys), s.heap = t.heap →
      (∀ j, j < es.length → w.now (s.clockReads + j) = w'.now (t.clockReads + j)) →
      (each w r es pts s).map pointsAndHeap = (each w' r es pts t).map pointsAndHeap := by
  induction es with
  | nil => intro pts s t hh _; simp [each, Except.map, pointsAndHeap, hh]
  | cons e es ih =>
    intro pts s t hh hn
    obtain ⟨name, i⟩ := e
    have hv := visit_sim w w' r name i pts s t hh (by simpa using hn 0 (by simp))
    simp only [each, bind, Except.bind]
    cases h1 : visit w r name i pts s with
    | error e1 =>
      cases h2 : visit w' r name i pts t with
      | error e2 => simpa [h1, h2, Except.map] using hv
      | ok y => simp [h1, h2, Except.map] at hv
    | ok x =>
      cases h2 : visit w' r name i pts t with
      | error e2 => simp [h1, h2, Except.map] at hv
      | ok y =>
        obtain ⟨p1, s1⟩ := x
        obtain ⟨p2, t1⟩ := y
        simp only [h1, h2, Except.map, pointsAndHeap, Except.ok.injEq, Prod.mk.injEq] at hv
        obtain ⟨rfl, hh1⟩ := hv
        obtain ⟨_, _, _, _, hc1, _, _⟩ := visit_frame w r name i pts p1 s s1 h1
        obtain ⟨_, _, _, _, hc2, _, _⟩ := visit_frame w' r name i pts p1 t t1 h2
        refine ih p1 s1 t1 hh1 ?_
        intro j hj
        rw [hc1, hc2]
        have := hn (j + 1) (by simp; omega)
        rw [show s.clockReads + 1 + j = s.clockReads + (j + 1) by omega,
          show t.clockReads + 1 + j = t.clockReads + (j + 1) by omega]
        exact this

theorem each_skip_other (w : World) (r : reporter) (name : String) (es2 : Registry)
    (es1 : Registry) :
    ∀ (pts : List Point) (s t : Sys), s.heap = t.heap → s.clockReads = t.clockReads →
      (each w r (es1 ++ (name, Metric.Other) :: es2) pts s).map pointsAndHeap
        = (each (skipReading w (s.clockReads + es1.length)) r (es1 ++ es2) pts t).map
            pointsAndHeap := by
  induction es1 with
  | nil =>
    intro pts s t hh hc
    simp only [List.nil_append, each, visit, bind, Except.bind, List.length_nil, Nat.add_zero]
    refine each_sim w _ r es2 pts _ t hh ?_
    intro j _
    simp only [skipReading]
    rw [if_neg (by omega)]
    congr 1
    omega
  | cons e es1 ih =>
    intro pts s t hh hc
    obtain ⟨n, i⟩ := e
    have hv := visit_sim w (skipReading w (s.clockReads + (es1.length + 1))) r n i pts s t hh
      (by simp only [skipReading]; rw [if_pos (by omega), hc])
    simp only [List.cons_append, each, bind, Except.bind, List.length_cons]
    cases h1 : visit w r n i pts s with
    | error e1 =>
      cases h2 : visit (skipReading w (s.clockReads + (es1.length + 1))) r n i pts t with
      | error e2 => simpa [h1, h2, Except.map] using hv
      | ok y => simp [h1, h2, Except.map] at hv
    | ok x =>
      cases h2 : visit (skipReading w (s.clockReads + (es1.length + 1))) r n i pts t with
      | error e2 => simp [h1, h2, Except.map] at hv
      | ok y =>
        obtain ⟨p1, s1⟩ := x
        obtain ⟨p2, t1⟩ := y
        simp only [h1, h2, Except.map, pointsAndHeap, Except.ok.injEq, Prod.mk.injEq] at hv
        obtain ⟨rfl, hh1⟩ := hv
        obtain ⟨_, _, _, _, hc1, _, _⟩ := visit_frame w r n i pts p1 s s1 h1
        obtain ⟨_, _, _, _, hc2, _, _⟩ := visit_frame _ r n i pts p1 t t1 h2
        have := ih p1 s1 t1 hh1 (by rw [hc1, hc2, hc])
        rw [hc1, show s.clockReads + 1 + es1.length = s.clockReads + (es1.length + 1) by omega]
          at this
        exact this

theorem send_batch (w : World) (r : reporter) (s s' : Sys) (err : Option Error)
    (h : send w r s = .ok (s', err)) :
    ∃ (c : Handle) (pts : List Point) (s2 : Sys),
      translateAll w r r.reg s = .ok (pts, s2) ∧ r.client = some c
      ∧ s' = { s2 with writeCalls := s.writeCalls + 1
                       trace := s2.trace ++ [Event.write c ⟨pts, r.database⟩] }
      ∧ err = w.write s.writeCalls c ⟨pts, r.database⟩
      ∧ writesIn s2.trace = writesIn s.trace
      ∧ cleared s2.trace = cleared s.trace ++ clearedBy r.reg := by
  obtain ⟨pts, s2, c, he, hc, rfl, rfl⟩ := send_inv w r s s' err h
  obtain ⟨hw, hcl, hwc, _, _⟩ := each_events w r r.reg [] pts s s2 he
  refine ⟨c, pts, s2, ?_, hc, by rw [hwc], by rw [hwc], hw, hcl⟩
  rw [each_translate] at he
  cases ht : translateAll w r r.reg s with
  | error e => simp [ht, Except.map] at he
  | ok x =>
    obtain ⟨x1, x2⟩ := x
    simp only [ht, Except.map, List.nil_append, Except.ok.injEq] at he
    rw [he]

/-! ## The claims on the fields, the batch and the write -/

/-- Claim C11: for every Meter, whatever its state, the callback appends
exactly one point, with measurement the name followed by `.meter`, the base
tags of the reporter, and exactly the five fields count, m1, m5, m15, mean,
equal to Count, Rate1, Rate5, Rate15 and RateMean of the snapshot. -/
theorem meter_one_point (w : World) (r : reporter) (name : String) (ms : MeterSnapshot)
    (pts : List Point) (s : Sys) :
    visit w r name (.Meter ms) pts s
      = .ok (pts ++ [{ Measurement := name ++ ".meter", Tags := r.tags,
                       Fields :=
                         [("count", .int64 ms.Count), ("m1", .float64 ms.Rate1),
                          ("m5", .float64 ms.Rate5), ("m15", .float64 ms.Rate15),
                          ("mean", .float64 ms.RateMean)],
                       Time := w.now s.clockReads }],
          { s with
            clockReads := s.clockReads + 1
            trace := s.trace ++
              [Event.now, Event.snapshot name,
               Event.append { Measurement := name ++ ".meter", Tags := r.tags,
                              Fields :=
                                [("count", .int64 ms.Count), ("m1", .float64 ms.Rate1),
                                 ("m5", .float64 ms.Rate5), ("m15", .float64 ms.Rate15),
                                 ("mean", .float64 ms.RateMean)],
                              Time := w.now s.clockReads }] }) := by
  simp [visit, appendPoint, snapshot]

/-- Claim C12, as stated, fails: the point of a Timer has the key `meanrate`,
which neither the point of the Histogram nor the point of the Meter with the
same accessors has; and the key `mean` carries RateMean in the Meter point but
Mean in the Timer point. -/
theorem timer_fields_not_plain_union :
    ∃ (pT pH pM : Point) (sT sH sM : Sys),
      visit exWorld (exReporter []) "rpc" (.Timer exTimer) [] exSys = .ok ([pT], sT)
      ∧ visit exWorld (exReporter []) "rpc" (.Histogram (histogramOf exTimer)) [] exSys
          = .ok ([pH], sH)
      ∧ visit exWorld (exReporter []) "rpc" (.Meter (meterOf exTimer)) [] exSys = .ok ([pM], sM)
      ∧ "meanrate" ∈ pT.Fields.map Prod.fst
      ∧ "meanrate" ∉ pH.Fields.map Prod.fst
      ∧ "meanrate" ∉ pM.Fields.map Prod.fst
      ∧ pM.Fields.lookup "mean" = some (.float64 exTimer.RateMean)
      ∧ pT.Fields.lookup "mean" = some (.float64 exTimer.Mean)
      ∧ exTimer.RateMean ≠ exTimer.Mean :=
  ⟨_, _, _, _, _, _, rfl, rfl, rfl, by decide, by decide, by decide, rfl, rfl, by decide⟩

/-- Claim C12, amended: the fields of a Timer point are the union of the fields
of the Histogram point and of the fields of the Meter point in which the key
`mean` of the Meter is written `meanrate`: a key with its value is in the
Timer point if and only if it is in the Histogram point or in the renamed
Meter point, for the Histogram and the Meter with the accessors of the Timer.
The keys of the Timer point are the twelve keys of the Histogram point
followed by m1, m5, m15, meanrate, all distinct. -/
theorem timer_fields_union_renamed (w : World) (r : reporter) (name : String)
    (ms : TimerSnapshot) (pts : List Point) (s : Sys)
    (p50 p75 p95 p99 p999 p9999 : F64) (rest : List F64)
    (hps : ms.Percentiles quantiles = p50 :: p75 :: p95 :: p99 :: p999 :: p9999 :: rest) :
    ∃ (pT pH pM : Point) (sT sH sM : Sys),
      visit w r name (.Timer ms) pts s = .ok (pts ++ [pT], sT)
      ∧ visit w r name (.Histogram (histogramOf ms)) pts s = .ok (pts ++ [pH], sH)
      ∧ visit w r name (.Meter (meterOf ms)) pts s = .ok (pts ++ [pM], sM)
      ∧ (∀ f, f ∈ pT.Fields ↔ f ∈ pH.Fields ∨ f ∈ renameKey "mean" "meanrate" pM.Fields)
      ∧ pT.Fields.map Prod.fst = pH.Fields.map Prod.fst ++ ["m1", "m5", "m15", "meanrate"]
      ∧ (pT.Fields.map Prod.fst).Nodup := by
  refine ⟨_, _, _, _, _, _,
    visit_timer_eq w r name ms pts s _ _ _ _ _ _ _ hps,
    visit_histogram_eq w r name (histogramOf ms) pts s _ _ _ _ _ _ _ hps,
    by simp [visit, appendPoint, snapshot]; exact ⟨rfl, rfl⟩, ?_, ?_, ?_⟩
  · intro f
    simp only [renameKey, histogramOf, meterOf, List.map_cons, List.map_nil, List.mem_cons,
      List.mem_singleton, List.not_mem_nil, or_false]
    simp
    tauto
  · rfl
  · show (["count", "max", "mean", "min", "stddev", "variance", "p50", "p75", "p95", "p99",
      "p999", "p9999", "m1", "m5", "m15", "meanrate"] : List String).Nodup
    decide

theorem timer_fields_union_renamed_witness :
    exTimer.Percentiles quantiles
      = ⟨0x3FE0000000000000⟩ :: ⟨0x3FE8000000000000⟩ :: ⟨0x3FEE666666666666⟩
        :: ⟨0x3FEFAE147AE147AE⟩ :: ⟨0x3FEFF7CED916872B⟩ :: ⟨0x3FEFFF2E48E8A71E⟩ :: []
    ∧ ∃ (pT pH pM : Point) (sT sH sM : Sys),
      visit exWorld (exReporter []) "rpc" (.Timer exTimer) [] exSys = .ok ([] ++ [pT], sT)
      ∧ visit exWorld (exReporter []) "rpc" (.Histogram (histogramOf exTimer)) [] exSys
          = .ok ([] ++ [pH], sH)
      ∧ visit exWorld (exReporter []) "rpc" (.Meter (meterOf exTimer)) [] exSys
          = .ok ([] ++ [pM], sM)
      ∧ (∀ f, f ∈ pT.Fields ↔ f ∈ pH.Fields ∨ f ∈ renameKey "mean" "meanrate" pM.Fields)
      ∧ pT.Fields.map Prod.fst = pH.Fields.map Prod.fst ++ ["m1", "m5", "m15", "meanrate"]
      ∧ (pT.Fields.map Prod.fst).Nodup :=
  ⟨rfl, timer_fields_union_renamed exWorld (exReporter []) "rpc" exTimer [] exSys
    _ _ _ _ _ _ _ rfl⟩

/-- Claim C13: for every visited entry whose value is of none of the seven
recognised kinds, the callback appends no point, raises nothing and invokes
nothing on the entry (it only reads the clock, as at every visit); and the
points and tag maps that a tick produces with such an entry in the registry
are those that it produces without the entry, the other entries being visited
at the same clock readings. -/
theorem unknown_kind_ignored (w : World) (r : reporter) (name : String)
    (pts : List Point) (s : Sys) :
    visit w r name .Other pts s
      = .ok (pts, { s with clockReads := s.clockReads + 1, trace := s.trace ++ [Event.now] })
    ∧ ∀ (es1 es2 : Registry),
        (each w r (es1 ++ (name, Metric.Other) :: es2) pts s).map pointsAndHeap
          = (each (skipReading w (s.clockReads + es1.length)) r (es1 ++ es2) pts s).map
              pointsAndHeap :=
  ⟨rfl, fun es1 es2 => each_skip_other w r name es2 es1 pts s s rfl rfl⟩

/-- Claim C14: the batch that a call of `send` hands to the store has the
database name of the reporter and, as points, the concatenation in visit order
of the points translated from each metric visited during this call, each from
the empty accumulator; this holds again for the next call, whatever the error
of the first write was: the batch of the next tick is the translation of the
registry as it is at the next tick and holds nothing else. -/
theorem batch_is_concatenation (w : World) (r : reporter) (s s' : Sys) (err : Option Error)
    (h : send w r s = .ok (s', err)) :
    (∃ (c : Handle) (pts : List Point) (s2 : Sys),
      translateAll w r r.reg s = .ok (pts, s2)
      ∧ writesIn s'.trace
          = writesIn s.trace ++ [(c, { Points := pts, Database := r.database })])
    ∧ ∀ (r2 : reporter) (s'' : Sys) (err2 : Option Error), send w r2 s' = .ok (s'', err2) →
        ∃ (c2 : Handle) (pts2 : List Point) (t2 : Sys),
          translateAll w r2 r2.reg s' = .ok (pts2, t2)
          ∧ writesIn s''.trace
              = writesIn s'.trace ++ [(c2, { Points := pts2, Database := r2.database })] := by
  constructor
  · obtain ⟨c, pts, s2, ht, _, rfl, _, hw, _⟩ := send_batch w r s s' err h
    exact ⟨c, pts, s2, ht, by simp only [writesIn_append, hw]; rfl⟩
  · intro r2 s'' err2 h2
    obtain ⟨c, pts, s2, ht, _, rfl, _, hw, _⟩ := send_batch w r2 s' s'' err2 h2
    exact ⟨c, pts, s2, ht, by simp only [writesIn_append, hw]; rfl⟩

theorem batch_is_concatenation_witness :
    send downWorld (exReporter counterThenGauge) exSys
      = .ok (sendFinal downWorld (exReporter counterThenGauge) exSys, some "write failed")
    ∧ (∃ (c : Handle) (pts : List Point) (s2 : Sys),
      translateAll downWorld (exReporter counterThenGauge) (exReporter counterThenGauge).reg exSys
        = .ok (pts, s2)
      ∧ writesIn (sendFinal downWorld (exReporter counterThenGauge) exSys).trace
          = writesIn exSys.trace
            ++ [(c, { Points := pts, Database := (exReporter counterThenGauge).database })])
    ∧ ∀ (r2 : reporter) (s'' : Sys) (err2 : Option Error),
        send downWorld r2 (sendFinal downWorld (exReporter counterThenGauge) exSys)
          = .ok (s'', err2) →
        ∃ (c2 : Handle) (pts2 : List Point) (t2 : Sys),
          translateAll downWorld r2 r2.reg (sendFinal downWorld (exReporter counterThenGauge) exSys)
            = .ok (pts2, t2)
          ∧ writesIn s''.trace
              = writesIn (sendFinal downWorld (exReporter counterThenGauge) exSys).trace
                ++ [(c2, { Points := pts2, Database := r2.database })] :=
  ⟨rfl, batch_is_concatenation downWorld (exReporter counterThenGauge) exSys
    (sendFinal downWorld (exReporter counterThenGauge) exSys) (some "write failed") rfl⟩

/-- Claim C15: a call of `send` issues exactly one batch write, also when the
batch is empty, and returns exactly the result of that write: the error it
returns is the error that the write returned (none if and only if the write
returned none), and after a failed write no second write follows. With a
client and a registry whose percentile calls answer all six quantiles, `send`
does return. -/
theorem send_writes_once (w : World) (r : reporter) (s : Sys) :
    (∀ (s' : Sys) (err : Option Error), send w r s = .ok (s', err) →
      ∃ (c : Handle) (pts : List Point),
        r.client = some c
        ∧ err = w.write s.writeCalls c { Points := pts, Database := r.database }
        ∧ writesIn s'.trace
            = writesIn s.trace ++ [(c, { Points := pts, Database := r.database })]
        ∧ s'.writeCalls = s.writeCalls + 1)
    ∧ (∀ c : Handle, r.client = some c → (∀ e ∈ r.reg, sixPercentiles e.2 = true) →
      ∃ (s' : Sys) (pts : List Point),
        send w r s
          = .ok (s', w.write s.writeCalls c { Points := pts, Database := r.database }))
    ∧ (∀ c : Handle, r.client = some c → r.reg = [] →
      send w r s
        = .ok ({ s with
                 writeCalls := s.writeCalls + 1
                 trace := s.trace
                   ++ [Event.write c { Points := [], Database := r.database }] },
               w.write s.writeCalls c { Points := [], Database := r.database })) := by
  refine ⟨?_, ?_, ?_⟩
  · intro s' err h
    obtain ⟨c, pts, s2, _, hc, rfl, rfl, hw, _⟩ := send_batch w r s s' err h
    exact ⟨c, pts, hc, rfl, by simp only [writesIn_append, hw]; rfl, rfl⟩
  · intro c hc hreg
    obtain ⟨⟨pts, s2⟩, he⟩ := each_total w r r.reg [] s hreg
    obtain ⟨_, _, hwc, _, _⟩ := each_events w r r.reg [] pts s s2 he
    exact ⟨_, pts, by simp [send, he, hc, bind, Except.bind, hwc]; rfl⟩
  · intro c hc hreg
    simp [send, hreg, each, hc, bind, Except.bind]

theorem send_writes_once_witness :
    (exReporter []).client = some 1 ∧ (exReporter []).reg = []
    ∧ (∀ e ∈ (exReporter []).reg, sixPercentiles e.2 = true)
    ∧ send downWorld (exReporter []) exSys
        = .ok (sendFinal downWorld (exReporter []) exSys, some "write failed")
    ∧ (∃ (c : Handle) (pts : List Point),
        (exReporter []).client = some c
        ∧ some "write failed"
            = downWorld.write exSys.writeCalls c
                { Points := pts, Database := (exReporter []).database }
        ∧ writesIn (sendFinal downWorld (exReporter []) exSys).trace
            = writesIn exSys.trace
              ++ [(c, { Points := pts, Database := (exReporter []).database })]
        ∧ (sendFinal downWorld (exReporter []) exSys).writeCalls = exSys.writeCalls + 1)
    ∧ (∃ (s' : Sys) (pts : List Point),
        send downWorld (exReporter []) exSys
          = .ok (s', downWorld.write exSys.writeCalls 1
              { Points := pts, Database := (exReporter []).database }))
    ∧ send downWorld (exReporter []) exSys
        = .ok ({ exSys with
                 writeCalls := exSys.writeCalls + 1
                 trace := exSys.trace
                   ++ [Event.write 1 { Points := [], Database := (exReporter []).database }] },
               downWorld.write exSys.writeCalls 1
                 { Points := [], Database := (exReporter []).database }) :=
  ⟨rfl, rfl, by simp [exReporter], rfl,
   (send_writes_once downWorld (exReporter []) exSys).1
     (sendFinal downWorld (exReporter []) exSys) (some "write failed") rfl,
   (send_writes_once downWorld (exReporter []) exSys).2.1 1 rfl (by simp [exReporter]),
   (send_writes_once downWorld (exReporter []) exSys).2.2 1 rfl rfl⟩

/-! ## Lemmas on the loop -/

theorem runTick_interval_inv (w : World) (r r' : reporter) (s s' : Sys) (content : Registry)
    (h : runTick w r s (.interval content) = .ok (r', s')) :
    r' = { r with reg := content }
    ∧ ∃ (s1 : Sys) (err : Option Error),
        send w { r with reg := content } s = .ok (s1, err)
        ∧ (s' = s1 ∨ ∃ msg, s' = logPrintf s1 msg) := by
  simp only [runTick, bind, Except.bind] at h
  cases hs : send w { r with reg := content } s with
  | error e => simp [hs] at h
  | ok x =>
    obtain ⟨s1, err⟩ := x
    simp only [hs] at h
    cases err with
    | none =>
      simp only [Except.ok.injEq, Prod.mk.injEq] at h
      exact ⟨h.1.symm, s1, none, rfl, Or.inl h.2.symm⟩
    | some e =>
      simp only [Except.ok.injEq, Prod.mk.injEq] at h
      exact ⟨h.1.symm, s1, some e, rfl, Or.inr ⟨_, h.2.symm⟩⟩

theorem runTick_ping_ok (w : World) (r : reporter) (s : Sys) (c : Handle)
    (hc : r.client = some c) (hp : w.ping s.pingCalls c = none) :
    runTick w r s .ping
      = .ok (r, { s with pingCalls := s.pingCalls + 1, trace := s.trace ++ [Event.ping c] }) := by
  simp [runTick, hc, hp]

theorem runTick_ping_rebuilt (w : World) (r : reporter) (s : Sys) (c : Handle) (e : Error)
    (c' : Option Handle)
    (hc : r.client = some c) (hp : w.ping s.pingCalls c = some e)
    (hn : w.newClient s.newClientCalls
        { URL := r.url, Username := r.username, Password := r.password } = (c', none)) :
    runTick w r s .ping
      = .ok ({ r with client := c' },
          { s with
            pingCalls := s.pingCalls + 1
            newClientCalls := s.newClientCalls + 1
            trace := s.trace ++
              [Event.ping c,
               Event.log ("got error while sending a ping to InfluxDB, "
                 ++ "trying to recreate client. err=" ++ e),
               Event.newClient
                 { URL := r.url, Username := r.username, Password := r.password }] }) := by
  simp [runTick, hc, hp, makeClient, logPrintf, hn]

theorem runTick_ping_not_rebuilt (w : World) (r : reporter) (s : Sys) (c : Handle)
    (e e2 : Error) (c' : Option Handle)
    (hc : r.client = some c) (hp : w.ping s.pingCalls c = some e)
    (hn : w.newClient s.newClientCalls
        { URL := r.url, Username := r.username, Password := r.password } = (c', some e2)) :
    runTick w r s .ping
      = .ok ({ r with client := c' },
          { s with
            pingCalls := s.pingCalls + 1
            newClientCalls := s.newClientCalls + 1
            trace := s.trace ++
              [Event.ping c,
               Event.log ("got error while sending a ping to InfluxDB, "
                 ++ "trying to recreate client. err=" ++ e),
               Event.newClient
                 { URL := r.url, Username := r.username, Password := r.password },
               Event.log ("unable to make InfluxDB client. err=" ++ e2)] }) := by
  simp [runTick, hc, hp, makeClient, logPrintf, hn]

theorem runTick_tags (w : World) (r r' : reporter) (s s' : Sys) (t : Tick)
    (h : runTick w r s t = .ok (r', s')) : r'.tags = r.tags := by
  cases t with
  | interval content =>
    obtain ⟨rfl, _⟩ := runTick_interval_inv w r r' s s' content h
    rfl
  | ping =>
    simp only [runTick] at h
    cases hc : r.client with
    | none => simp [hc] at h
    | some c =>
      simp only [hc] at h
      cases hp : w.ping s.pingCalls c with
      | none =>
        simp only [hp, Except.ok.injEq, Prod.mk.injEq] at h
        rw [← h.1]
      | some e =>
        simp only [hp] at h
        split at h <;>
          (simp only [Except.ok.injEq, Prod.mk.injEq] at h; rw [← h.1]; rfl)

theorem run_tags (w : World) (ticks : List Tick) :
    ∀ (r r' : reporter) (s s' : Sys), run w ticks r s = .ok (r', s') → r'.tags = r.tags := by
  induction ticks with
  | nil =>
    intro r r' s s' h
    simp only [run, Except.ok.injEq, Prod.mk.injEq] at h
    rw [← h.1]
  | cons t ticks ih =>
    intro r r' s s' h
    simp only [run, bind, Except.bind] at h
    cases ht : runTick w r s t with
    | error e => simp [ht] at h
    | ok x =>
      obtain ⟨r1, s1⟩ := x
      simp only [ht] at h
      rw [ih r1 r' s1 s' h, runTick_tags w r r1 s s1 t ht]

theorem send_total (w : World) (r : reporter) (s : Sys) (c : Handle) (hc : r.client = some c)
    (hreg : ∀ e ∈ r.reg, sixPercentiles e.2 = true) :
    ∃ (s' : Sys) (err : Option Error), send w r s = .ok (s', err) := by
  obtain ⟨⟨pts, s2⟩, he⟩ := each_total w r r.reg [] s hreg
  exact ⟨_, _, by simp [send, he, hc, bind, Except.bind]; exact ⟨rfl, rfl⟩⟩

theorem runTick_total (w : World) (hnew : ∀ k cfg, (w.newClient k cfg).1.isSome = true)
    (r : reporter) (s : Sys) (t : Tick) (hc : r.client.isSome = true)
    (hreg : ∀ content, t = .interval content → ∀ e ∈ content, sixPercentiles e.2 = true) :
    ∃ (r' : reporter) (s' : Sys), runTick w r s t = .ok (r', s') ∧ r'.client.isSome = true := by
  obtain ⟨c, hc'⟩ := Option.isSome_iff_exists.mp hc
  cases t with
  | interval content =>
    obtain ⟨s1, err, hs⟩ := send_total w { r with reg := content } s c hc' (hreg content rfl)
    cases err with
    | none =>
      exact ⟨{ r with reg := content }, s1, by simp [runTick, hs, bind, Except.bind], hc⟩
    | some e =>
      exact ⟨{ r with reg := content }, _, by simp [runTick, hs, bind, Except.bind]; rfl, hc⟩
  | ping =>
    cases hp : w.ping s.pingCalls c with
    | none => exact ⟨_, _, runTick_ping_ok w r s c hc' hp, hc⟩
    | some e =>
      rcases hn : w.newClient s.newClientCalls
          { URL := r.url, Username := r.username, Password := r.password } with ⟨c', e2⟩
      have hc2 : c'.isSome = true := by
        have := hnew s.newClientCalls
          { URL := r.url, Username := r.username, Password := r.password }
        rw [hn] at this
        exact this
      cases e2 with
      | none => exact ⟨_, _, runTick_ping_rebuilt w r s c e c' hc' hp hn, hc2⟩
      | some e2 => exact ⟨_, _, runTick_ping_not_rebuilt w r s c e e2 c' hc' hp hn, hc2⟩

theorem run_total (w : World) (hnew : ∀ k cfg, (w.newClient k cfg).1.isSome = true)
    (ticks : List Tick) :
    ∀ (r : reporter) (s : Sys), r.client.isSome = true →
      (∀ content, Tick.interval content ∈ ticks → ∀ e ∈ content, sixPercentiles e.2 = true) →
      ∃ (r' : reporter) (s' : Sys), run w ticks r s = .ok (r', s') ∧ r'.client.isSome = true := by
  induction ticks with
  | nil => intro r s hc _; exact ⟨r, s, rfl, hc⟩
  | cons t ticks ih =>
    intro r s hc hreg
    obtain ⟨r1, s1, h1, hc1⟩ := runTick_total w hnew r s t hc
      (fun content ht => hreg content (by simp [ht]))
    obtain ⟨r2, s2, h2, hc2⟩ := ih r1 s1 hc1
      (fun content hm => hreg content (by simp [hm]))
    exact ⟨r2, s2, by simp [run, h1, bind, Except.bind, h2], hc2⟩

/-! ## The claims on the loop and on the start -/

/-- Claim C16: on a health-check tick of `run`, `makeClient` is invoked exactly
once if the ping returns an error and not at all if the ping succeeds. After a
successful ping the reporter and its handle are what they were; after a failed
ping the handle is the one that the single `NewClient` call returned, the newly
created one when the rebuild succeeds. The theorem holds for every reporter
with a handle, so also for the rebuilt one: its next ping goes through its
handle, and a report tick writes through its handle and keeps it. -/
theorem ping_tick_rebuilds_iff_ping_fails (w : World) (r : reporter) (s : Sys) (c : Handle)
    (hc : r.client = some c) :
    (w.ping s.pingCalls c = none →
      runTick w r s .ping
        = .ok (r, { s with pingCalls := s.pingCalls + 1
                           trace := s.trace ++ [Event.ping c] }))
    ∧ (∀ (e : Error) (c' : Option Handle), w.ping s.pingCalls c = some e →
        w.newClient s.newClientCalls
          { URL := r.url, Username := r.username, Password := r.password } = (c', none) →
        runTick w r s .ping
          = .ok ({ r with client := c' },
              { s with
                pingCalls := s.pingCalls + 1
                newClientCalls := s.newClientCalls + 1
                trace := s.trace ++
                  [Event.ping c,
                   Event.log ("got error while sending a ping to InfluxDB, "
                     ++ "trying to recreate client. err=" ++ e),
                   Event.newClient
                     { URL := r.url, Username := r.username, Password := r.password }] }))
    ∧ (∀ (e e2 : Error) (c' : Option Handle), w.ping s.pingCalls c = some e →
        w.newClient s.newClientCalls
          { URL := r.url, Username := r.username, Password := r.password } = (c', some e2) →
        runTick w r s .ping
          = .ok ({ r with client := c' },
              { s with
                pingCalls := s.pingCalls + 1
                newClientCalls := s.newClientCalls + 1
                trace := s.trace ++
                  [Event.ping c,
                   Event.log ("got error while sending a ping to InfluxDB, "
                     ++ "trying to recreate client. err=" ++ e),
                   Event.newClient
                     { URL := r.url, Username := r.username, Password := r.password },
                   Event.log ("unable to make InfluxDB client. err=" ++ e2)] }))
    ∧ (∀ (content : Registry) (r1 : reporter) (s1 : Sys),
        runTick w r s (.interval content) = .ok (r1, s1) →
        r1.client = some c ∧ s1.newClientCalls = s.newClientCalls
        ∧ ∃ pts, writesIn s1.trace
            = writesIn s.trace ++ [(c, { Points := pts, Database := r.database })]) := by
  refine ⟨runTick_ping_ok w r s c hc, ?_, ?_, ?_⟩
  · intro e c' hp hn
    exact runTick_ping_rebuilt w r s c e c' hc hp hn
  · intro e e2 c' hp hn
    exact runTick_ping_not_rebuilt w r s c e e2 c' hc hp hn
  · intro content r1 s1 h
    obtain ⟨rfl, s2, err, hs, hs1⟩ := runTick_interval_inv w r r1 s s1 content h
    obtain ⟨pts, s3, c2, he, hc2, rfl, _⟩ := send_inv w _ s s2 err hs
    obtain ⟨hw, _, _, _, hnc⟩ := each_events w _ content [] pts s s3 he
    have hcc : c2 = c := by
      have : some c2 = some c := by rw [← hc2, ← hc]
      exact Option.some.inj this
    subst hcc
    refine ⟨hc, ?_, pts, ?_⟩
    · rcases hs1 with rfl | ⟨msg, rfl⟩ <;> exact hnc
    · rcases hs1 with rfl | ⟨msg, rfl⟩
      · simp only [writesIn_append, hw]; rfl
      · simp only [logPrintf, writesIn_append, hw]
        simp [writesIn]

theorem ping_tick_rebuilds_iff_ping_fails_witness :
    (exReporter []).client = some 1
    ∧ exWorld.ping exSys.pingCalls 1 = none
    ∧ runTick exWorld (exReporter []) exSys .ping
        = .ok (exReporter [], { exSys with pingCalls := exSys.pingCalls + 1
                                           trace := exSys.trace ++ [Event.ping 1] })
    ∧ runTick rebuildWorld (exReporter []) exSys .ping
        = .ok ({ exReporter [] with client := some 2 },
            { exSys with
              pingCalls := exSys.pingCalls + 1
              newClientCalls := exSys.newClientCalls + 1
              trace := exSys.trace ++
                [Event.ping 1,
                 Event.log ("got error while sending a ping to InfluxDB, "
                   ++ "trying to recreate client. err=" ++ "ping failed"),
                 Event.newClient
                   { URL := (exReporter []).url, Username := (exReporter []).username,
                     Password := (exReporter []).password }] })
    ∧ (∃ (r2 : reporter) (s2 : Sys),
        run rebuildWorld [.ping, .interval twoCounters] (exReporter []) exSys = .ok (r2, s2)
        ∧ r2.client = some 2
        ∧ (writesIn s2.trace).map Prod.fst = [2]) :=
  ⟨rfl, rfl,
   (ping_tick_rebuilds_iff_ping_fails exWorld (exReporter []) exSys 1 rfl).1 rfl,
   (ping_tick_rebuilds_iff_ping_fails rebuildWorld (exReporter []) exSys 1 rfl).2.1
     "ping failed" (some 2) rfl rfl,
   ⟨_, _, rfl, rfl, rfl⟩⟩

/-- Claim C17: `InfluxDBWithTags` enters the loop of `run` if and only if the
parse of the endpoint succeeds and the first `makeClient` returns no error. If
the URL does not parse it returns after one log line, without a `NewClient`
call and without handling a tick; if the first `makeClient` returns an error it
returns after that one `NewClient` call and one log line, without handling a
tick; in both cases no write and no ping is issued, whatever ticks fire. -/
theorem starts_iff_parse_and_client (w : World) (parse : String → Except Error String)
    (ticks : List Tick) (reg : Registry) (d : Int) (url database username password : String)
    (tags : MapRef) (s : Sys) :
    (∀ e, parse url = .error e →
      InfluxDBWithTags w parse ticks reg d url database username password tags s
        = .ok (.returned { s with
            trace := s.trace
              ++ [Event.log ("unable to parse InfluxDB url " ++ url ++ ". err=" ++ e)] }))
    ∧ (∀ u e c, parse url = .ok u →
        w.newClient s.newClientCalls { URL := u, Username := username, Password := password }
          = (c, some e) →
        InfluxDBWithTags w parse ticks reg d url database username password tags s
          = .ok (.returned { s with
              newClientCalls := s.newClientCalls + 1
              trace := s.trace
                ++ [Event.newClient { URL := u, Username := username, Password := password },
                    Event.log ("unable to make InfluxDB client. err=" ++ e)] }))
    ∧ (∀ u c, parse url = .ok u →
        w.newClient s.newClientCalls { URL := u, Username := username, Password := password }
          = (c, none) →
        InfluxDBWithTags w parse ticks reg d url database username password tags s
          = (run w ticks
              { reg := reg, interval := d, url := u, database := database,
                username := username, password := password, tags := tags, client := c }
              { s with
                newClientCalls := s.newClientCalls + 1
                trace := s.trace
                  ++ [Event.newClient { URL := u, Username := username, Password := password }] }
            ).map (fun x => Started.looping x.1 x.2))
    ∧ ((∃ rep s', InfluxDBWithTags w parse [] reg d url database username password tags s
          = .ok (.looping rep s'))
        ↔ ∃ u, parse url = .ok u
            ∧ (w.newClient s.newClientCalls
                { URL := u, Username := username, Password := password }).2 = none) := by
  have h1 : ∀ e, parse url = .error e →
      InfluxDBWithTags w parse ticks reg d url database username password tags s
        = .ok (.returned { s with
            trace := s.trace
              ++ [Event.log ("unable to parse InfluxDB url " ++ url ++ ". err=" ++ e)] }) := by
    intro e hp
    simp [InfluxDBWithTags, hp, logPrintf]
  have h2 : ∀ (tk : List Tick) u e c, parse url = .ok u →
      w.newClient s.newClientCalls { URL := u, Username := username, Password := password }
        = (c, some e) →
      InfluxDBWithTags w parse tk reg d url database username password tags s
        = .ok (.returned { s with
            newClientCalls := s.newClientCalls + 1
            trace := s.trace
              ++ [Event.newClient { URL := u, Username := username, Password := password },
                  Event.log ("unable to make InfluxDB client. err=" ++ e)] }) := by
    intro tk u e c hp hn
    simp [InfluxDBWithTags, hp, makeClient, hn, logPrintf]
  have h3 : ∀ (tk : List Tick) u c, parse url = .ok u →
      w.newClient s.newClientCalls { URL := u, Username := username, Password := password }
        = (c, none) →
      InfluxDBWithTags w parse tk reg d url database username password tags s
        = (run w tk
            { reg := reg, interval := d, url := u, database := database,
              username := username, password := password, tags := tags, client := c }
            { s with
              newClientCalls := s.newClientCalls + 1
              trace := s.trace
                ++ [Event.newClient { URL := u, Username := username, Password := password }] }
          ).map (fun x => Started.looping x.1 x.2) := by
    intro tk u c hp hn
    simp only [InfluxDBWithTags, hp, makeClient, hn, bind, Except.bind]
    cases run w tk _ _ <;> rfl
  refine ⟨h1, h2 ticks, h3 ticks, ?_⟩
  constructor
  · rintro ⟨rep, s', h⟩
    cases hp : parse url with
    | error e => rw [InfluxDBWithTags, hp] at h; simp at h
    | ok u =>
      refine ⟨u, rfl, ?_⟩
      rcases hn : w.newClient s.newClientCalls
          { URL := u, Username := username, Password := password } with ⟨c, e⟩
      cases e with
      | none => rfl
      | some e => rw [h2 [] u e c hp hn] at h; simp at h
  · rintro ⟨u, hp, hn⟩
    rcases hn' : w.newClient s.newClientCalls
        { URL := u, Username := username, Password := password } with ⟨c, e⟩
    rw [hn'] at hn
    simp only at hn
    subst hn
    exact ⟨_, _, by rw [h3 [] u c hp hn']; rfl⟩

theorem starts_iff_parse_and_client_witness :
    parseFail "::" = .error "invalid URL"
    ∧ InfluxDBWithTags downWorld parseFail [.ping, .interval twoCounters] [] 1000000000
          "::" "metrics" "u" "p" (some 0) exSys
        = .ok (.returned { exSys with
            trace := exSys.trace
              ++ [Event.log ("unable to parse InfluxDB url " ++ "::" ++ ". err="
                    ++ "invalid URL")] })
    ∧ parseOk "http://localhost:8086" = .ok "http://localhost:8086"
    ∧ downWorld.newClient exSys.newClientCalls
          { URL := "http://localhost:8086", Username := "u", Password := "p" }
        = (none, some "connection refused")
    ∧ InfluxDBWithTags downWorld parseOk [.ping, .interval twoCounters] [] 1000000000
          "http://localhost:8086" "metrics" "u" "p" (some 0) exSys
        = .ok (.returned { exSys with
            newClientCalls := exSys.newClientCalls + 1
            trace := exSys.trace
              ++ [Event.newClient
                    { URL := "http://localhost:8086", Username := "u", Password := "p" },
                  Event.log ("unable to make InfluxDB client. err=" ++ "connection refused")] })
    ∧ rebuildWorld.newClient exSys.newClientCalls
          { URL := "http://localhost:8086", Username := "u", Password := "p" }
        = (some 2, none)
    ∧ InfluxDBWithTags rebuildWorld parseOk [.interval twoCounters] [] 1000000000
          "http://localhost:8086" "metrics" "u" "p" (some 0) exSys
        = (run rebuildWorld [.interval twoCounters]
            { reg := [], interval := 1000000000, url := "http://localhost:8086",
              database := "metrics", username := "u", password := "p", tags := some 0,
              client := some 2 }
            { exSys with
              newClientCalls := exSys.newClientCalls + 1
              trace := exSys.trace
                ++ [Event.newClient
                      { URL := "http://localhost:8086", Username := "u", Password := "p" }] }
          ).map (fun x => Started.looping x.1 x.2) :=
  ⟨rfl,
   (starts_iff_parse_and_client downWorld parseFail [.ping, .interval twoCounters] [] 1000000000
      "::" "metrics" "u" "p" (some 0) exSys).1 "invalid URL" rfl,
   rfl, rfl,
   (starts_iff_parse_and_client downWorld parseOk [.ping, .interval twoCounters] [] 1000000000
      "http://localhost:8086" "metrics" "u" "p" (some 0) exSys).2.1
      "http://localhost:8086" "connection refused" none rfl rfl,
   rfl,
   (starts_iff_parse_and_client rebuildWorld parseOk [.interval twoCounters] [] 1000000000
      "http://localhost:8086" "metrics" "u" "p" (some 0) exSys).2.2.1
      "http://localhost:8086" (some 2) rfl rfl⟩

/-- Claim C18: no error terminates the loop. The client returns a handle from
every `NewClient`, with or without an error (the hypothesis), and `Percentiles`
answers the six quantiles at every report tick. Then a reporter that started
with success handles every sequence of report ticks and health-check ticks to
completion, whatever the writes, the pings and the rebuilds return, and is left
running with a handle; and from every running state each further tick is
handled to completion and leaves a running state again, so that the next tick
can be handled. -/
theorem loop_handles_every_tick (w : World)
    (hnew : ∀ k cfg, (w.newClient k cfg).1.isSome = true) :
    (∀ (parse : String → Except Error String) (ticks : List Tick) (reg : Registry) (d : Int)
        (url database username password u : String) (tags : MapRef) (s : Sys),
        parse url = .ok u →
        (w.newClient s.newClientCalls
          { URL := u, Username := username, Password := password }).2 = none →
        (∀ content, Tick.interval content ∈ ticks → ∀ e ∈ content, sixPercentiles e.2 = true) →
        ∃ (rep : reporter) (s' : Sys),
          InfluxDBWithTags w parse ticks reg d url database username password tags s
            = .ok (.looping rep s')
          ∧ rep.client.isSome = true)
    ∧ (∀ (ticks : List Tick) (r : reporter) (s : Sys), r.client.isSome = true →
        (∀ content, Tick.interval content ∈ ticks → ∀ e ∈ content, sixPercentiles e.2 = true) →
        ∃ (r' : reporter) (s' : Sys), run w ticks r s = .ok (r', s') ∧ r'.client.isSome = true)
    ∧ (∀ (t : Tick) (r : reporter) (s : Sys), r.client.isSome = true →
        (∀ content, t = .interval content → ∀ e ∈ content, sixPercentiles e.2 = true) →
        ∃ (r' : reporter) (s' : Sys), runTick w r s t = .ok (r', s') ∧ r'.client.isSome = true) := by
  refine ⟨?_, fun ticks r s hc hreg => run_total w hnew ticks r s hc hreg,
    fun t r s hc hreg => runTick_total w hnew r s t hc hreg⟩
  intro parse ticks reg d url database username password u tags s hp hstart hreg
  rcases hn : w.newClient s.newClientCalls
      { URL := u, Username := username, Password := password } with ⟨c, e⟩
  rw [hn] at hstart
  simp only at hstart
  subst hstart
  have hc : c.isSome = true := by
    have := hnew s.newClientCalls { URL := u, Username := username, Password := password }
    rw [hn] at this
    exact this
  obtain ⟨r', s', hrun, hc'⟩ := run_total w hnew ticks
    { reg := reg, interval := d, url := u, database := database, username := username,
      password := password, tags := tags, client := c }
    { s with
      newClientCalls := s.newClientCalls + 1
      trace := s.trace
        ++ [Event.newClient { URL := u, Username := username, Password := password }] }
    hc hreg
  refine ⟨r', s', ?_, hc'⟩
  simp only [InfluxDBWithTags, hp, makeClient, hn, bind, Except.bind]
  rw [hrun]

theorem loop_handles_every_tick_witness :
    (∀ k cfg, (stormWorld.newClient k cfg).1.isSome = true)
    ∧ parseOk "http://localhost:8086" = .ok "http://localhost:8086"
    ∧ (stormWorld.newClient exSys.newClientCalls
        { URL := "http://localhost:8086", Username := "u", Password := "p" }).2 = none
    ∧ (∀ content, Tick.interval content ∈ [Tick.interval twoCounters, Tick.ping, Tick.ping,
          Tick.interval counterThenGauge] →
        ∀ e ∈ content, sixPercentiles e.2 = true)
    ∧ (∃ (rep : reporter) (s' : Sys),
        InfluxDBWithTags stormWorld parseOk
            [Tick.interval twoCounters, Tick.ping, Tick.ping, Tick.interval counterThenGauge]
            [] 1000000000 "http://localhost:8086" "metrics" "u" "p" (some 0) exSys
          = .ok (.looping rep s')
        ∧ rep.client.isSome = true) :=
  have hreg : ∀ content, Tick.interval content ∈ [Tick.interval twoCounters, Tick.ping,
      Tick.ping, Tick.interval counterThenGauge] →
      ∀ e ∈ content, sixPercentiles e.2 = true := by
    intro content hm e he
    simp only [List.mem_cons, Tick.interval.injEq, List.mem_singleton, List.not_mem_nil,
      or_false] at hm
    rcases hm with rfl | h | h | rfl
    · simp only [twoCounters, List.mem_cons, List.mem_singleton, List.not_mem_nil,
        or_false] at he
      rcases he with rfl | rfl <;> rfl
    · cases h
    · cases h
    · simp only [counterThenGauge, List.mem_cons, List.mem_singleton, List.not_mem_nil,
        or_false] at he
      rcases he with rfl | rfl <;> rfl
  ⟨fun _ _ => rfl, rfl, rfl, hreg,
   (loop_handles_every_tick stormWorld (fun _ _ => rfl)).1 parseOk
     [Tick.interval twoCounters, Tick.ping, Tick.ping, Tick.interval counterThenGauge]
     [] 1000000000 "http://localhost:8086" "metrics" "u" "p" "http://localhost:8086"
     (some 0) exSys rfl rfl hreg⟩

/-- Claim C19: every `Clear` of a call of `send` is made during the visit of
the registry, before the write is attempted: in the trace all of them stand
before the one write, which is the last event. The names cleared are those of
the set Gauge, GaugeFloat64 and GaugeCollection entries of the registry, and
the state after `send` is the same in two worlds that differ only in what the
store answers: a set gauge is cleared also when the write of its batch
fails. -/
theorem clears_independent_of_write (w w' : World) (r : reporter) (s : Sys)
    (hnow : w'.now = w.now) :
    (send w' r s).map Prod.fst = (send w r s).map Prod.fst
    ∧ ∀ (s' : Sys) (err : Option Error), send w r s = .ok (s', err) →
        ∃ (pts : List Point) (s2 : Sys) (c : Handle) (bps : BatchPoints),
          each w r r.reg [] s = .ok (pts, s2)
          ∧ s'.trace = s2.trace ++ [Event.write c bps]
          ∧ writesIn s2.trace = writesIn s.trace
          ∧ cleared s2.trace = cleared s.trace ++ clearedBy r.reg
          ∧ cleared s'.trace = cleared s.trace ++ clearedBy r.reg := by
  constructor
  · simp only [send, each_congr_now w w' r hnow, bind, Except.bind]
    cases each w r r.reg [] s with
    | error e => rfl
    | ok x =>
      cases hc : r.client with
      | none => rfl
      | some c => rfl
  · intro s' err h
    obtain ⟨pts, s2, c, he, _, rfl, _⟩ := send_inv w r s s' err h
    obtain ⟨hw, hcl, _, _, _⟩ := each_events w r r.reg [] pts s s2 he
    refine ⟨pts, s2, c, _, he, rfl, hw, hcl, ?_⟩
    simp only [cleared_append, hcl]
    simp [cleared]

theorem clears_independent_of_write_witness :
    downWorld.now = exWorld.now
    ∧ (send downWorld (exReporter counterThenGauge) exSys).map Prod.fst
        = (send exWorld (exReporter counterThenGauge) exSys).map Prod.fst
    ∧ send exWorld (exReporter counterThenGauge) exSys
        = .ok (sendFinal exWorld (exReporter counterThenGauge) exSys, none)
    ∧ send downWorld (exReporter counterThenGauge) exSys
        = .ok (sendFinal exWorld (exReporter counterThenGauge) exSys, some "write failed")
    ∧ cleared (sendFinal exWorld (exReporter counterThenGauge) exSys).trace = ["temp"] :=
  ⟨rfl,
   (clears_independent_of_write exWorld downWorld (exReporter counterThenGauge) exSys rfl).1,
   rfl, rfl, by decide⟩

/-- Claim C20: for a reporter without base tags (`InfluxDB` hands the nil map
to `InfluxDBWithTags`, and the loop keeps it), `copyTagMap` of the nil map
allocates an empty map, to which an entry can be assigned; the visit of a set
Gauge, of a set GaugeFloat64 and of a set GaugeCollection does not panic, and
the tag mapping of each point is exactly the dynamic tag of its gauge or
reading when there is one, and empty when there is none. -/
theorem nil_base_tags (w : World) (r : reporter) (name : String) (pts : List Point) (s : Sys)
    (hr : r.tags = none) :
    copyTagMap s.heap r.tags = (some s.heap.length, s.heap ++ [∅])
    ∧ (∀ k v, mapAssign (copyTagMap s.heap r.tags).2 (copyTagMap s.heap r.tags).1 k v
        = .ok (s.heap ++ [AList.singleton k v]))
    ∧ (∀ ms : GaugeSnapshot, ms.IsSet = true →
      ∃ (p : Point) (s' : Sys), visit w r name (.Gauge ms) pts s = .ok (pts ++ [p], s')
        ∧ deref s'.heap p.Tags = tagOnly ms.Tag)
    ∧ (∀ ms : GaugeFloat64Snapshot, ms.IsSet = true →
      ∃ (p : Point) (s' : Sys), visit w r name (.GaugeFloat64 ms) pts s = .ok (pts ++ [p], s')
        ∧ deref s'.heap p.Tags = tagOnly ms.Tag)
    ∧ (∀ ms : GaugeCollectionSnapshot, ms.IsSet = true →
      ∃ (new : List Point) (s' : Sys),
        visit w r name (.GaugeCollection ms) pts s = .ok (pts ++ new, s')
        ∧ new.length = ms.Readings.length
        ∧ ∀ (i : Nat) (hi : i < ms.Readings.length), ∃ p, new[i]? = some p
          ∧ deref s'.heap p.Tags = tagOnly (ms.Readings.get ⟨i, hi⟩).Tag)
    ∧ (∀ (parse : String → Except Error String) (ticks : List Tick) (reg : Registry) (d : Int)
        (url database username password : String) (s0 s1 : Sys) (rep : reporter),
        InfluxDB w parse ticks reg d url database username password s0 = .ok (.looping rep s1) →
        rep.tags = none) := by
  have hm : ∀ tag : Option Tag, mergedMap (deref s.heap none) tag = tagOnly tag := by
    intro tag
    cases tag <;> rfl
  refine ⟨by rw [hr]; rfl, ?_, ?_, ?_, ?_, ?_⟩
  · intro k v
    rw [hr]
    simp only [copyTagMap, mapAssign, getD_append_length, set_append_length]
    rfl
  · intro ms h
    refine ⟨_, _, visit_gauge_eq w r name ms pts s h, ?_⟩
    simp only [deref, getD_append_length, hr]
    exact hm ms.Tag
  · intro ms h
    refine ⟨_, _, visit_gaugeFloat64_eq w r name ms pts s h, ?_⟩
    simp only [deref, getD_append_length, hr]
    exact hm ms.Tag
  · intro ms h
    refine ⟨_, _, visit_collection_eq w r name ms pts s h, by simp, ?_⟩
    intro i hi
    refine ⟨readingPoint name (s.heap.length + i, ms.Readings.get ⟨i, hi⟩), ?_, ?_⟩
    · simp [List.getElem?_map, List.getElem?_enumFrom, List.getElem?_eq_getElem hi]
    · simp only [hr, readingsHeap_closed none ms.Readings s.heap rfl, deref, readingPoint]
      rw [List.getD_eq_getElem?_getD, List.getElem?_append_right (by omega)]
      simp only [Nat.add_sub_cancel_left, List.getElem?_map, List.getElem?_eq_getElem hi,
        Option.map_some', Option.getD_some]
      exact hm _
  · intro parse ticks reg d url database username password s0 s1 rep h
    simp only [InfluxDB, InfluxDBWithTags] at h
    cases hp : parse url with
    | error e => simp [hp] at h
    | ok u =>
      simp only [hp] at h
      split at h
      · simp at h
      · simp only [bind, Except.bind] at h
        split at h
        · simp at h
        · rename_i x hx
          simp only [Except.ok.injEq, Started.looping.injEq] at h
          have := run_tags w ticks _ x.1 _ x.2 hx
          rw [← h.1, this]
          rfl

theorem nil_base_tags_witness :
    ({ exReporter [] with tags := none } : reporter).tags = none
    ∧ exGauge.IsSet = true ∧ exGaugeFloat64.IsSet = true ∧ exCollection.IsSet = true
    ∧ (∃ (p : Point) (s' : Sys),
        visit exWorld { exReporter [] with tags := none } "temp" (.Gauge exGauge) [] exSys
          = .ok ([] ++ [p], s')
        ∧ deref s'.heap p.Tags = tagOnly exGauge.Tag)
    ∧ (∃ (p : Point) (s' : Sys),
        visit exWorld { exReporter [] with tags := none } "temp" (.GaugeFloat64 exGaugeFloat64)
            [] exSys
          = .ok ([] ++ [p], s')
        ∧ deref s'.heap p.Tags = tagOnly exGaugeFloat64.Tag)
    ∧ (∃ (new : List Point) (s' : Sys),
        visit exWorld { exReporter [] with tags := none } "temp" (.GaugeCollection exCollection)
            [] exSys
          = .ok ([] ++ new, s')
        ∧ new.length = exCollection.Readings.length
        ∧ ∀ (i : Nat) (hi : i < exCollection.Readings.length), ∃ p, new[i]? = some p
          ∧ deref s'.heap p.Tags = tagOnly (exCollection.Readings.get ⟨i, hi⟩).Tag) :=
  ⟨rfl, rfl, rfl, rfl,
   (nil_base_tags exWorld { exReporter [] with tags := none } "temp" [] exSys rfl).2.2.1
     exGauge rfl,
   (nil_base_tags exWorld { exReporter [] with tags := none } "temp" [] exSys rfl).2.2.2.1
     exGaugeFloat64 rfl,
   (nil_base_tags exWorld { exReporter [] with tags := none } "temp" [] exSys rfl).2.2.2.2.1
     exCollection rfl⟩

end Influxdb
